import Mathlib

/-
Verification development for the extraction & caching pipeline of
app/services/textract.py (TextractService).  The Python service is shallowly
embedded: pure helpers become Lean functions on String / List Char, and the
effectful orchestrator extract_text_from_s3 becomes a pure function of an
explicit environment describing the external collaborators (object store,
cache index, OCR backend, generative-text backend) that additionally returns
an ordered trace of the side effects it performed.  Character classes of the
Python regexes are modelled on the ASCII plane.
-/

namespace TS

/-- Whitespace characters matched by the Python regex class for whitespace and
by str.strip, modelled on the ASCII plane: space, tab, newline, carriage
return, vertical tab, form feed. -/
def isPySpace (c : Char) : Bool :=
  c == ' ' || c == '\t' || c == '\n' || c == '\r' || c == Char.ofNat 11 || c == Char.ofNat 12

/-- Word characters of the Python regex word class, ASCII plane: letters,
digits, underscore. -/
def isWordChar (c : Char) : Bool :=
  c.isAlphanum || c == '_'

/-- Punctuation allow-list of the OCR-artifact filter regex in
TextractService._clean_text (the characters escaped inside its negated
character class). -/
def isAllowedPunct (c : Char) : Bool :=
  c == '.' || c == ',' || c == ';' || c == ':' || c == '!' || c == '?' || c == '-' ||
  c == '(' || c == ')' || c == '[' || c == ']' || c == Char.ofNat 123 || c == Char.ofNat 125 ||
  c == '@' || c == '#' || c == '$' || c == '%' || c == '&' || c == '*' || c == '+' ||
  c == '=' || c == '<' || c == '>' || c == '|' || c == '~' || c == Char.ofNat 96 ||
  c == Char.ofNat 39 || c == Char.ofNat 34

/-- Characters kept by the artifact filter: word characters, whitespace, and
the allow-listed punctuation. -/
def isAllowed (c : Char) : Bool :=
  isWordChar c || isPySpace c || isAllowedPunct c

/-- Replace every maximal run of characters satisfying p by the single
character r.  The Boolean argument records whether the previous character was
part of a run.  With p the whitespace class and r a space this is the
re.sub collapsing one-or-more whitespace into a single space. -/
def collapseRuns (p : Char → Bool) (r : Char) : Bool → List Char → List Char
  | _, [] => []
  | prev, c :: cs =>
    if p c then
      if prev then collapseRuns p r true cs else r :: collapseRuns p r true cs
    else c :: collapseRuns p r false cs

/-- Drop trailing whitespace (the right half of Python str.strip). -/
def stripEnd (l : List Char) : List Char :=
  (l.reverse.dropWhile isPySpace).reverse

/-- Python str.strip on a character list: drop whitespace from both ends. -/
def stripList (l : List Char) : List Char :=
  stripEnd (l.dropWhile isPySpace)

/-- First OCR-error substitution of _clean_text: pipe becomes capital I. -/
def ocrFixPipe (c : Char) : Char :=
  if c = '|' then 'I' else c

/-- Second OCR-error substitution of _clean_text: digit zero becomes capital O. -/
def ocrFixZero (c : Char) : Char :=
  if c = '0' then 'O' else c

/-- Shallow embedding of TextractService._clean_text: collapse whitespace runs
to single spaces, filter to the allow-listed characters, replace every pipe by
I and every zero by O, collapse runs of spaces, and strip. -/
def cleanList (l : List Char) : List Char :=
  stripList (collapseRuns (fun c => c == ' ') ' ' false
    ((((collapseRuns isPySpace ' ' false l).filter isAllowed).map ocrFixPipe).map ocrFixZero))

/-- TextractService._clean_text on strings. -/
def clean_text (s : String) : String :=
  String.mk (cleanList s.data)

/-- Characters that may occupy a non-space position of cleaned text: allowed,
not whitespace, and not one of the two substituted OCR artifacts. -/
def goodSolid (c : Char) : Prop :=
  isAllowed c = true ∧ isPySpace c = false ∧ c ≠ '|' ∧ c ≠ '0'

/-- Normal form of cleaned text.  The Boolean index is true when a space may
not appear next (at the start of the text or right after a space); spaces are
single and never trailing. -/
inductive Norm : Bool → List Char → Prop
  | nil (prev : Bool) : Norm prev []
  | space (cs : List Char) (hne : cs ≠ []) (h : Norm true cs) : Norm false (' ' :: cs)
  | solid (c : Char) (cs : List Char) (prev : Bool) (hc : goodSolid c) (h : Norm false cs) :
      Norm prev (c :: cs)

/-- Relaxed normal form that additionally allows a trailing space; it is what
holds before the final strip. -/
inductive SemiNorm : Bool → List Char → Prop
  | nil (prev : Bool) : SemiNorm prev []
  | space (cs : List Char) (h : SemiNorm true cs) : SemiNorm false (' ' :: cs)
  | solid (c : Char) (cs : List Char) (prev : Bool) (hc : goodSolid c) (h : SemiNorm false cs) :
      SemiNorm prev (c :: cs)

theorem Norm.toSemiNorm : ∀ {b : Bool} {l : List Char}, Norm b l → SemiNorm b l := by
  intro b l h
  induction h with
  | nil prev => exact SemiNorm.nil prev
  | space cs hne h ih => exact SemiNorm.space cs ih
  | solid c cs prev hc h ih => exact SemiNorm.solid c cs prev hc ih

theorem collapseRuns_cons_skip {p : Char → Bool} {r c : Char} {cs : List Char}
    (hc : p c = true) :
    collapseRuns p r true (c :: cs) = collapseRuns p r true cs := by
  simp [collapseRuns, hc]

theorem collapseRuns_cons_emit {p : Char → Bool} {r c : Char} {cs : List Char}
    (hc : p c = true) :
    collapseRuns p r false (c :: cs) = r :: collapseRuns p r true cs := by
  simp [collapseRuns, hc]

theorem collapseRuns_cons_neg {p : Char → Bool} {r c : Char} {cs : List Char}
    (hc : p c = false) (b : Bool) :
    collapseRuns p r b (c :: cs) = c :: collapseRuns p r false cs := by
  simp [collapseRuns, hc]

theorem mem_collapseRuns {p : Char → Bool} {r : Char} :
    ∀ (l : List Char) (b : Bool) (c : Char), c ∈ collapseRuns p r b l →
      c = r ∨ (c ∈ l ∧ p c = false) := by
  intro l
  induction l with
  | nil => intro b c h; simp [collapseRuns] at h
  | cons a as ih =>
    intro b c h
    by_cases hpa : p a = true
    · cases b with
      | true =>
        rw [collapseRuns_cons_skip hpa] at h
        rcases ih true c h with h1 | ⟨h2, h3⟩
        · exact Or.inl h1
        · exact Or.inr ⟨List.mem_cons_of_mem a h2, h3⟩
      | false =>
        rw [collapseRuns_cons_emit hpa] at h
        rcases List.mem_cons.mp h with h | h
        · exact Or.inl h
        · rcases ih true c h with h1 | ⟨h2, h3⟩
          · exact Or.inl h1
          · exact Or.inr ⟨List.mem_cons_of_mem a h2, h3⟩
    · have hpa' : p a = false := by
        cases hp : p a
        · rfl
        · exact absurd hp hpa
      rw [collapseRuns_cons_neg hpa'] at h
      rcases List.mem_cons.mp h with h | h
      · exact Or.inr ⟨by rw [h]; exact List.mem_cons_self a as, by rw [h]; exact hpa'⟩
      · rcases ih false c h with h1 | ⟨h2, h3⟩
        · exact Or.inl h1
        · exact Or.inr ⟨List.mem_cons_of_mem a h2, h3⟩

theorem norm_true_to_any {l : List Char} (h : Norm true l) : ∀ b : Bool, Norm b l := by
  intro b
  cases h with
  | nil => exact Norm.nil b
  | solid c cs prev hc h' => exact Norm.solid c cs b hc h'

theorem collapseRuns_eq_of_norm {p : Char → Bool}
    (hp : p ' ' = true) (hns : ∀ c : Char, goodSolid c → p c = false) :
    ∀ {b : Bool} {l : List Char}, Norm b l → collapseRuns p ' ' b l = l := by
  intro b l h
  induction h with
  | nil prev => rfl
  | space cs hne h ih => rw [collapseRuns_cons_emit hp, ih]
  | solid c cs prev hc h ih => rw [collapseRuns_cons_neg (hns c hc), ih]

theorem filter_eq_of_norm :
    ∀ {b : Bool} {l : List Char}, Norm b l → l.filter isAllowed = l := by
  intro b l h
  induction h with
  | nil prev => rfl
  | space cs hne h ih =>
    have : isAllowed ' ' = true := by decide
    simp [List.filter_cons, this, ih]
  | solid c cs prev hc h ih => simp [List.filter_cons, hc.1, ih]

theorem map_fixPipe_eq_of_norm :
    ∀ {b : Bool} {l : List Char}, Norm b l → l.map ocrFixPipe = l := by
  intro b l h
  induction h with
  | nil prev => rfl
  | space cs hne h ih => simp [ocrFixPipe, ih]
  | solid c cs prev hc h ih => simp [ocrFixPipe, hc.2.2.1, ih]

theorem map_fixZero_eq_of_norm :
    ∀ {b : Bool} {l : List Char}, Norm b l → l.map ocrFixZero = l := by
  intro b l h
  induction h with
  | nil prev => rfl
  | space cs hne h ih => simp [ocrFixZero, ih]
  | solid c cs prev hc h ih => simp [ocrFixZero, hc.2.2.2, ih]

theorem length_dropWhile_le (p : Char → Bool) :
    ∀ l : List Char, (l.dropWhile p).length ≤ l.length := by
  intro l
  induction l with
  | nil => simp [List.dropWhile]
  | cons a as ih =>
    by_cases h : p a = true
    · simp only [List.dropWhile, h, if_true]
      exact Nat.le_succ_of_le ih
    · have h' : p a = false := by cases hp : p a; rfl; exact absurd hp h
      simp [List.dropWhile, h']

theorem head_false_of_dropWhile_eq_self {p : Char → Bool} {c : Char} {t : List Char}
    (h : List.dropWhile p (c :: t) = c :: t) : p c = false := by
  cases hp : p c
  · rfl
  · exfalso
    have h1 : List.dropWhile p (c :: t) = List.dropWhile p t := by
      simp [List.dropWhile, hp]
    have h2 : (List.dropWhile p t).length ≤ t.length := length_dropWhile_le p t
    rw [h1] at h
    have := congrArg List.length h
    simp at this
    omega

theorem dropWhile_append_of_eq_self {p : Char → Bool} {l : List Char}
    (h : List.dropWhile p l = l) (hne : l ≠ []) (l2 : List Char) :
    List.dropWhile p (l ++ l2) = l ++ l2 := by
  cases l with
  | nil => exact absurd rfl hne
  | cons c t =>
    have hc : p c = false := head_false_of_dropWhile_eq_self h
    simp [List.dropWhile, hc]

theorem stripEnd_reverse_drop {l : List Char}
    (h : stripEnd l = l) : List.dropWhile isPySpace l.reverse = l.reverse := by
  unfold stripEnd at h
  have := congrArg List.reverse h
  simpa using this

theorem stripEnd_cons_of_stripEnd_eq_self {a : Char} {l : List Char}
    (h : stripEnd l = l) (hne : l ≠ []) : stripEnd (a :: l) = a :: l := by
  have hdrop : List.dropWhile isPySpace l.reverse = l.reverse := stripEnd_reverse_drop h
  have hrne : l.reverse ≠ [] := by
    intro hcon
    exact hne (by simpa using congrArg List.reverse hcon)
  unfold stripEnd
  rw [List.reverse_cons, dropWhile_append_of_eq_self hdrop hrne [a]]
  simp

theorem stripEnd_append_space (l : List Char) :
    stripEnd (l ++ [' ']) = stripEnd l := by
  unfold stripEnd
  rw [List.reverse_append]
  simp [List.dropWhile, isPySpace]

theorem stripEnd_singleton_solid {c : Char} (hc : goodSolid c) : stripEnd [c] = [c] := by
  unfold stripEnd
  simp [List.dropWhile, hc.2.1]

theorem stripEnd_singleton_space : stripEnd [' '] = [] := by
  decide

theorem semiNorm_true_not_space_head :
    ∀ {l : List Char}, SemiNorm true l → ∀ cs, l ≠ ' ' :: cs := by
  intro l h cs hcon
  cases h with
  | nil => simp at hcon
  | solid c cs' prev hc h' =>
    injection hcon with h1 h2
    rw [h1] at hc
    exact absurd hc.2.1 (by decide)

theorem stripEnd_norm :
    ∀ {b : Bool} {l : List Char}, SemiNorm b l →
      (stripEnd l = l ∧ Norm b l) ∨
      (∃ l', l = l' ++ [' '] ∧ stripEnd l = l' ∧ Norm b l') := by
  intro b l h
  induction h with
  | nil prev => exact Or.inl ⟨by decide, Norm.nil prev⟩
  | space cs h ih =>
    rcases ih with ⟨hs, hn⟩ | ⟨cs', hcs, hs, hn⟩
    · rcases eq_or_ne cs [] with hcsnil | hne
      · subst hcsnil
        refine Or.inr ⟨[], by simp, ?_, Norm.nil false⟩
        exact stripEnd_singleton_space
      · refine Or.inl ⟨?_, Norm.space cs hne hn⟩
        exact stripEnd_cons_of_stripEnd_eq_self hs hne
    · have hcs'ne : cs' ≠ [] := by
        intro hcon
        subst hcon
        simp at hcs
        exact semiNorm_true_not_space_head (hcs ▸ h) [] rfl
      have hse : stripEnd cs' = cs' := by
        have h2 : stripEnd cs = stripEnd cs' := by rw [hcs]; exact stripEnd_append_space cs'
        rw [hs] at h2; exact h2.symm
      refine Or.inr ⟨' ' :: cs', ?_, ?_, Norm.space cs' hcs'ne hn⟩
      · rw [hcs]; rfl
      · have : (' ' :: cs') ++ [' '] = ' ' :: (cs' ++ [' ']) := rfl
        rw [hcs]
        rw [show (' ' :: (cs' ++ [' '])) = (' ' :: cs') ++ [' '] from rfl]
        rw [stripEnd_append_space]
        exact stripEnd_cons_of_stripEnd_eq_self hse hcs'ne
  | solid c cs prev hc h ih =>
    rcases ih with ⟨hs, hn⟩ | ⟨cs', hcs, hs, hn⟩
    · rcases eq_or_ne cs [] with hcsnil | hne
      · subst hcsnil
        exact Or.inl ⟨stripEnd_singleton_solid hc, Norm.solid c [] prev hc (Norm.nil false)⟩
      · refine Or.inl ⟨?_, Norm.solid c cs prev hc hn⟩
        exact stripEnd_cons_of_stripEnd_eq_self hs hne
    · have hse : stripEnd cs' = cs' := by
        have h2 : stripEnd cs = stripEnd cs' := by rw [hcs]; exact stripEnd_append_space cs'
        rw [hs] at h2; exact h2.symm
      refine Or.inr ⟨c :: cs', ?_, ?_, Norm.solid c cs' prev hc hn⟩
      · rw [hcs]; rfl
      · rw [hcs]
        rw [show (c :: (cs' ++ [' '])) = (c :: cs') ++ [' '] from rfl]
        rw [stripEnd_append_space]
        rcases eq_or_ne cs' [] with hcs'nil | hne
        · subst hcs'nil; exact stripEnd_singleton_solid hc
        · exact stripEnd_cons_of_stripEnd_eq_self hse hne

theorem norm_no_trailing_space :
    ∀ (l : List Char) (b : Bool), ¬ Norm b (l ++ [' ']) := by
  intro l
  induction l with
  | nil =>
    intro b h
    cases h with
    | space cs hne h' => exact hne rfl
    | solid c cs prev hc h' =>
      have : isPySpace ' ' = true := by decide
      rw [hc.2.1] at this
      exact absurd this (by simp)
  | cons a as ih =>
    intro b h
    cases h with
    | space cs hne h' => exact ih true h'
    | solid c cs prev hc h' => exact ih false h'

theorem dropWhile_eq_self_of_norm_true :
    ∀ {l : List Char}, Norm true l → l.dropWhile isPySpace = l := by
  intro l h
  cases h with
  | nil => rfl
  | solid c cs prev hc h' => simp [List.dropWhile, hc.2.1]

theorem stripList_eq_of_norm :
    ∀ {l : List Char}, Norm true l → stripList l = l := by
  intro l h
  unfold stripList
  rw [dropWhile_eq_self_of_norm_true h]
  rcases stripEnd_norm h.toSemiNorm with ⟨hs, _⟩ | ⟨l', hcs, _, _⟩
  · exact hs
  · exact absurd (hcs ▸ h) (norm_no_trailing_space l' true)

theorem semiNorm_collapse (t : List Char)
    (ht : ∀ c ∈ t, c = ' ' ∨ goodSolid c) :
    ∀ b : Bool, SemiNorm b (collapseRuns (fun c => c == ' ') ' ' b t) := by
  induction t with
  | nil => intro b; exact SemiNorm.nil b
  | cons a as ih =>
    intro b
    have has : ∀ c ∈ as, c = ' ' ∨ goodSolid c := fun c hc => ht c (List.mem_cons_of_mem a hc)
    by_cases ha : a = ' '
    · subst ha
      cases b with
      | true =>
        simp only [collapseRuns, beq_self_eq_true, if_true]
        exact ih has true
      | false =>
        simp only [collapseRuns, beq_self_eq_true, if_true]
        exact SemiNorm.space _ (ih has true)
    · have hgood : goodSolid a := by
        rcases ht a (List.mem_cons_self a as) with h | h
        · exact absurd h ha
        · exact h
      have hbeq : (a == ' ') = false := by
        simp [ha]
      simp only [collapseRuns, hbeq, Bool.false_eq_true, if_false]
      exact SemiNorm.solid a _ b hgood (ih has false)

theorem semiNorm_dropWhile :
    ∀ {b : Bool} {l : List Char}, SemiNorm b l → SemiNorm true (l.dropWhile isPySpace) := by
  intro b l h
  induction h with
  | nil prev => exact SemiNorm.nil true
  | space cs h ih =>
    have hsp : isPySpace ' ' = true := by decide
    simpa [List.dropWhile, hsp] using ih
  | solid c cs prev hc h ih =>
    simp only [List.dropWhile, hc.2.1, Bool.false_eq_true, if_false]
    exact SemiNorm.solid c cs true hc h

theorem cleanList_norm (l : List Char) : Norm true (cleanList l) := by
  unfold cleanList
  set t1 := collapseRuns isPySpace ' ' false l with ht1
  set t3 := ((t1.filter isAllowed).map ocrFixPipe).map ocrFixZero with ht3
  have ht3mem : ∀ c ∈ t3, c = ' ' ∨ goodSolid c := by
    intro c hc
    rw [ht3] at hc
    simp only [List.mem_map, List.mem_filter] at hc
    obtain ⟨c1, ⟨c0, ⟨hc0mem, hc0allowed⟩, hc01⟩, hc1⟩ := hc
    rcases mem_collapseRuns l false c0 hc0mem with hsp | ⟨_, hc0notspace⟩
    · subst hsp
      left
      rw [← hc1, ← hc01]
      rfl
    · by_cases hp : c0 = '|'
      · subst hp
        right
        rw [← hc1, ← hc01]
        exact ⟨by decide, by decide, by decide, by decide⟩
      · by_cases hz : c0 = '0'
        · subst hz
          right
          rw [← hc1, ← hc01]
          exact ⟨by decide, by decide, by decide, by decide⟩
        · have h1 : ocrFixPipe c0 = c0 := by simp [ocrFixPipe, hp]
          have h2 : ocrFixZero c0 = c0 := by simp [ocrFixZero, hz]
          right
          rw [← hc1, ← hc01, h1, h2]
          exact ⟨hc0allowed, hc0notspace, hp, hz⟩
  have hsemi : SemiNorm false (collapseRuns (fun c => c == ' ') ' ' false t3) :=
    semiNorm_collapse t3 ht3mem false
  have hsemi2 := semiNorm_dropWhile hsemi
  unfold stripList
  rcases stripEnd_norm hsemi2 with ⟨hs, hn⟩ | ⟨l', _, hs, hn⟩
  · rw [hs]; exact hn
  · rw [hs]; exact hn

theorem cleanList_idem (l : List Char) : cleanList (cleanList l) = cleanList l := by
  have hn : Norm true (cleanList l) := cleanList_norm l
  have hnf : Norm false (cleanList l) := norm_true_to_any hn false
  have hns2 : ∀ c : Char, goodSolid c → (c == ' ') = false := by
    intro c hc
    have hcne : c ≠ ' ' := by
      intro hcon
      rw [hcon] at hc
      exact absurd hc.2.1 (by decide)
    simp [hcne]
  show stripList (collapseRuns (fun c => c == ' ') ' ' false
      ((((collapseRuns isPySpace ' ' false (cleanList l)).filter isAllowed).map
        ocrFixPipe).map ocrFixZero)) = cleanList l
  rw [collapseRuns_eq_of_norm (by decide) (fun c hc => hc.2.1) hnf,
    filter_eq_of_norm hn, map_fixPipe_eq_of_norm hn, map_fixZero_eq_of_norm hn,
    collapseRuns_eq_of_norm (by decide) hns2 hnf,
    stripList_eq_of_norm hn]

theorem clean_text_idem (s : String) : clean_text (clean_text s) = clean_text s := by
  unfold clean_text
  exact congrArg String.mk (cleanList_idem s.data)

theorem norm_mem_char :
    ∀ {b : Bool} {l : List Char}, Norm b l → ∀ c ∈ l, c = ' ' ∨ goodSolid c := by
  intro b l h
  induction h with
  | nil prev => intro c hc; simp at hc
  | space cs hne h ih =>
    intro c hc
    rcases List.mem_cons.mp hc with h1 | h1
    · exact Or.inl h1
    · exact ih c h1
  | solid c0 cs prev hc h ih =>
    intro c hcm
    rcases List.mem_cons.mp hcm with h1 | h1
    · exact Or.inr (h1 ▸ hc)
    · exact ih c h1

theorem clean_text_no_zero_no_pipe (s : String) :
    '0' ∉ (clean_text s).data ∧ '|' ∉ (clean_text s).data := by
  have hn := cleanList_norm s.data
  have hmem := norm_mem_char hn
  constructor
  · intro hc
    rcases hmem '0' hc with h | h
    · exact absurd h (by decide)
    · exact h.2.2.2 rfl
  · intro hc
    rcases hmem '|' hc with h | h
    · exact absurd h (by decide)
    · exact h.2.2.1 rfl

/-
Embedding of TextractService._process_extracted_text.  The sub-results that no
verified property inspects (section map, key-information dictionary, quality
metrics) are not carried; key_info_input records the text handed to
_extract_key_information (the cleaned text), which is also the processed_text
returned and later persisted.  Since every embedded sub-step is total, the
fallback except-branch of the Python function is unreachable in the model.
-/

/-- Output of _process_extracted_text that the pipeline uses downstream. -/
structure ProcessedText where
  processed_text : String
  key_info_input : String
  original_length : Nat
  processed_length : Nat
deriving DecidableEq, Repr

/-- TextractService._process_extracted_text: clean the raw text; sections,
key information and quality metrics are computed from the same cleaned text. -/
def process_extracted_text (raw_text : String) (_document_type : String) : ProcessedText :=
  let cleaned := clean_text raw_text
  ⟨cleaned, cleaned, raw_text.length, cleaned.length⟩

/-
Embedding of TextractService._extract_text_async.  The OCR backend is an
environment: the outcome of start_document_text_detection, the response of the
n-th get_document_text_detection call inside the polling loop, and the Blocks
of the final result fetch (the fetch after the loop breaks on SUCCEEDED is
modelled as returning these blocks).  Confidences are modelled as rationals.
-/

/-- JobStatus strings returned by get_document_text_detection. -/
inductive JobStatus
  | submitted
  | inProgress
  | succeeded
  | failed
  | other (s : String)
deriving DecidableEq, Repr

/-- Outcome of one get_document_text_detection call: a status response with an
optional StatusMessage, a ClientError with code InvalidJobIdException (treated
as not-ready), or any other ClientError. -/
inductive PollResult
  | ok (st : JobStatus) (statusMessage : Option String)
  | invalidJobId
  | clientError (msg : String)

/-- Outcome of start_document_text_detection. -/
inductive StartResult
  | ok (jobId : String)
  | clientError (msg : String)
  | exn (msg : String)

/-- One Textract Block of the result payload. -/
structure Block where
  blockType : String
  text : String
  confidence : ℚ
deriving DecidableEq, Repr

/-- The OCR backend as seen by one extraction call. -/
structure OcrEnv where
  start : StartResult
  poll : Nat → PollResult
  finalBlocks : List Block

/-- max_wait_time of the polling loop, in seconds. -/
def max_wait_time : Nat := 300

/-- wait_interval of the polling loop, in seconds. -/
def wait_interval : Nat := 5

/-- How the polling loop ended. -/
inductive LoopExit
  | succeeded
  | jobFailed (msg : String)
  | timedOut
  | unknownStatus (s : String)
  | clientErr (msg : String)
deriving DecidableEq, Repr

/-- Result of the polling loop together with the number of polls made and the
total seconds slept (each non-terminal poll sleeps wait_interval seconds). -/
structure LoopOut where
  exit : LoopExit
  polls : Nat
  slept : Nat
deriving DecidableEq, Repr

/-- The while-loop of _extract_text_async: fuel is the number of iterations
the 300-second ceiling still allows (elapsed_time advances by wait_interval
after every non-terminal poll), done is the number of polls already made. -/
def pollLoop (env : OcrEnv) : Nat → Nat → LoopOut
  | 0, done => ⟨.timedOut, done, wait_interval * done⟩
  | fuel + 1, done =>
    match env.poll done with
    | .ok .succeeded _ => ⟨.succeeded, done + 1, wait_interval * done⟩
    | .ok .failed m => ⟨.jobFailed (m.getD "Job failed"), done + 1, wait_interval * done⟩
    | .ok .submitted _ => pollLoop env fuel (done + 1)
    | .ok .inProgress _ => pollLoop env fuel (done + 1)
    | .ok (.other s) _ => ⟨.unknownStatus s, done + 1, wait_interval * done⟩
    | .invalidJobId => pollLoop env fuel (done + 1)
    | .clientError m => ⟨.clientErr m, done + 1, wait_interval * done⟩

/-- Outcome of _extract_text_async: either the success dictionary fields or
the error message of the failure dictionary. -/
inductive AsyncOut
  | ok (text : String) (confidence : ℚ) (blocksCount : Nat)
  | err (msg : String)
deriving DecidableEq, Repr

/-- Result of _extract_text_async plus its observable OCR-backend usage. -/
structure AsyncRun where
  out : AsyncOut
  starts : Nat
  polls : Nat
  slept : Nat
deriving DecidableEq, Repr

/-- Blocks of type LINE. -/
def lineBlocks (blocks : List Block) : List Block :=
  blocks.filter (fun b => b.blockType == "LINE")

/-- Newline-join of the LINE texts. -/
def joinedText (blocks : List Block) : String :=
  String.intercalate "\n" ((lineBlocks blocks).map Block.text)

/-- Average of the LINE confidences, 0 when there is no LINE block. -/
def avgConfidence (blocks : List Block) : ℚ :=
  let scores := (lineBlocks blocks).map Block.confidence
  if scores.length = 0 then 0 else scores.sum / (scores.length : ℚ)

/-- TextractService._extract_text_async.  A ClientError from start or from a
poll surfaces as the failure dictionary with a Textract-error message; a
FAILED status raises and is caught by the generic handler, preserving the
StatusMessage; loop exhaustion raises the timeout message.  The polls field
counts the get calls made inside the loop; the final result fetch performed
after a SUCCEEDED break is one further get call, not counted here. -/
def extract_text_async (env : OcrEnv) : AsyncRun :=
  match env.start with
  | .clientError m => ⟨.err ("Textract error: " ++ m), 1, 0, 0⟩
  | .exn m => ⟨.err m, 1, 0, 0⟩
  | .ok _ =>
    let lo := pollLoop env (max_wait_time / wait_interval) 0
    match lo.exit with
    | .timedOut => ⟨.err "Textract job timed out", 1, lo.polls, lo.slept⟩
    | .jobFailed m => ⟨.err ("Textract job failed: " ++ m), 1, lo.polls, lo.slept⟩
    | .unknownStatus s => ⟨.err ("Unknown job status: " ++ s), 1, lo.polls, lo.slept⟩
    | .clientErr m => ⟨.err ("Textract error: " ++ m), 1, lo.polls, lo.slept⟩
    | .succeeded =>
      ⟨.ok (joinedText env.finalBlocks) (avgConfidence env.finalBlocks)
        (lineBlocks env.finalBlocks).length, 1, lo.polls, lo.slept⟩

/-
Embedding of TextractService._extract_structured_json.  The bedrock client
and json.loads are external collaborators: the environment gives the converse
response as a function of the prompt, and the parse outcome (a failed parse,
a parsed non-dict value, or a parsed dict) as a function of the text handed to
json.loads.  The code-fence preprocessing of the response is embedded exactly.
-/

/-- A parsed JSON object (dict); the field list carries Python dict truthiness:
the empty list is the falsy empty dict. -/
structure SJson where
  fields : List (String × String)
deriving DecidableEq, Repr

/-- Outcome of json.loads plus the isinstance-dict check. -/
inductive ParseOut
  | parseError
  | nonDict
  | dict (j : SJson)

/-- Outcome of bedrock-runtime converse. -/
inductive ConverseOut
  | transportErr (msg : String)
  | ok (text : String)

/-- The generative-text backend as seen by one extraction call. -/
structure BedrockEnv where
  modelArn : Option String
  converse : String → ConverseOut
  parse : String → ParseOut

/-- The backquote character. -/
def backquote : Char := Char.ofNat 96

/-- The seven-character opening code fence with the json language tag. -/
def fenceJson : List Char :=
  [backquote, backquote, backquote, 'j', 's', 'o', 'n']

/-- Python str.replace of the json code fence by the empty string: remove
every non-overlapping occurrence, scanning left to right. -/
def removeFenceJson : List Char → List Char
  | [] => []
  | c :: cs =>
    if fenceJson.isPrefixOf (c :: cs) then removeFenceJson (cs.drop 6)
    else c :: removeFenceJson cs
termination_by l => l.length
decreasing_by
  · simp only [List.length_cons]
    have := List.length_drop 6 cs
    omega
  · simp only [List.length_cons]
    omega

/-- Python str.rstrip with a backquote argument: drop all trailing backquotes. -/
def rstripTicks (l : List Char) : List Char :=
  (l.reverse.dropWhile (fun c => c == backquote)).reverse

/-- Whether the text ends with three backquotes. -/
def endsWithTicks (l : List Char) : Bool :=
  [backquote, backquote, backquote].isSuffixOf l

/-- The response_text preprocessing of _extract_structured_json: strip, remove
the opening fence when the text starts with it (then strip), drop trailing
backquotes when the text ends with a closing fence (then strip). -/
def strip_fences (s : String) : String :=
  let t0 := stripList s.data
  let t1 := if fenceJson.isPrefixOf t0 then stripList (removeFenceJson t0) else t0
  let t2 := if endsWithTicks t1 then stripList (rstripTicks t1) else t1
  String.mk t2

/-- The cv instruction of _extract_structured_json. -/
def cv_prompt : String :=
  "You are an expert at extracting structured information from resume text. " ++
  "Do not fabricate. Return strict JSON with keys: full_name, email_address, " ++
  "phone_number, location, summary, linkedin_profile, github_profile, " ++
  "portfolio_website, skills (array), work_experience (array of objects: " ++
  "job_title, company, duration, description), education (array of objects: " ++
  "degree, institution, graduation_year), certifications (array), languages " ++
  "(array), projects (array), references (array)."

/-- The jd instruction of _extract_structured_json. -/
def jd_prompt : String :=
  "Extract structured info from job description as strict JSON with keys: " ++
  "job_title, company_name, location, job_type, salary_range, company_website, " ++
  "posting_date, contact_information, responsibilities (array), requirements " ++
  "(array), benefits (array), application_instructions, required_certifications " ++
  "(array), preferred_languages (array)."

/-- The prompt assembled by _extract_structured_json. -/
def prompt_for (document_type raw_text : String) : String :=
  (if document_type == "cv" then cv_prompt else jd_prompt) ++ "\n" ++ raw_text

/-- TextractService._extract_structured_json: returns none when no model ARN
is configured, on any transport error, on any parse failure, and when the
parsed value is not a dict; otherwise the parsed dict. -/
def extract_structured_json (env : BedrockEnv) (raw_text document_type : String) :
    Option SJson :=
  match env.modelArn with
  | none => none
  | some _ =>
    match env.converse (prompt_for document_type raw_text) with
    | .transportErr _ => none
    | .ok rtext =>
      match env.parse (strip_fences rtext) with
      | .dict j => some j
      | _ => none

/-
Embedding of TextractService.extract_text_from_s3.  The object store, the
cache index (DynamoDB) and the two backends are an explicit environment; the
function returns the result dictionary together with an ordered trace of the
externally visible effects the call performed.  The decoded body of a cached
blob is modelled as a string (utf-8 decode of the utf-8 encoded blob is the
identity); an ETag is carried already stripped of its surrounding quotes.
-/

/-- Head-object data used by the call: the user_id and file_id metadata
entries, the quote-stripped ETag, and the LastModified timestamp. -/
structure HeadData where
  user_id : Option String
  file_id : Option String
  etag : String
  last_modified : Option String
deriving DecidableEq, Repr

/-- Outcome of cache-index lookup: resource missing, item missing, an item
with its stored source_etag, or a raised lookup error (all but the item case
make the code keep etag_matches true). -/
inductive DynamoGet
  | unavailable
  | noItem
  | item (source_etag : Option String)
  | raised
deriving DecidableEq, Repr

/-- Outcome of reading the cached raw-extract blob: a decoded body, a
botocore ClientError with its error code, or a non-ClientError exception
raised while getting or reading the body. -/
inductive GetObjectOut
  | ok (content : String)
  | clientError (code : String)
  | readError (msg : String)
deriving DecidableEq, Repr

/-- Outcome of a put_object or update_item call. -/
inductive PutOut
  | ok
  | err (msg : String)
deriving DecidableEq, Repr

/-- The external world as seen by one extract_text_from_s3 call. -/
structure Env where
  head : Option HeadData
  dynamoGet : DynamoGet
  getCached : GetObjectOut
  putExtract : PutOut
  putJson : PutOut
  dynamoUpdAvail : Bool
  dynamoUpd : PutOut
  ocr : OcrEnv
  bedrock : BedrockEnv

/-- Python truthiness of an optional string: present and non-empty. -/
def truthy : Option String → Bool
  | none => false
  | some s => !(s == "")

/-- Python truthiness of the optional structured-JSON dict: present and
non-empty. -/
def truthySJ : Option SJson → Bool
  | none => false
  | some j => !(j.fields == [])

/-- Whether a put or update succeeded. -/
def putOk : PutOut → Bool
  | .ok => true
  | .err _ => false

/-- Folder of the raw-extract blob, by document type. -/
def extract_folder (document_type : String) : String :=
  if document_type == "cv" then "Textract/CV_extract" else "Textract/JD_extract"

/-- Folder of the structured-JSON blob, by document type. -/
def processed_folder (document_type : String) : String :=
  if document_type == "cv" then "Processed/CV_Json" else "Processed/JD_Json"

/-- The deterministic raw-extract key, defined exactly when both identifiers
are truthy. -/
def extract_key_of (document_type : String) : Option String → Option String → Option String
  | some u, some f =>
    if u ≠ "" ∧ f ≠ "" then
      some (extract_folder document_type ++ "/" ++ u ++ "/" ++ f ++ ".txt")
    else none
  | _, _ => none

/-- The deterministic structured-JSON key. -/
def processed_key_of (document_type u f : String) : String :=
  processed_folder document_type ++ "/" ++ u ++ "/" ++ f ++ ".json"

/-- The etag_matches computation of the cache check: a mismatch is only
recorded when an item exists whose stored source_etag is truthy and the
freshly probed ETag is truthy too; every failure of the lookup degrades to a
match. -/
def etag_matches (g : DynamoGet) (source_etag : Option String) : Bool :=
  match g, source_etag with
  | .item (some rec_etag), some se =>
    if rec_etag ≠ "" ∧ se ≠ "" then rec_etag == se else true
  | _, _ => true

/-- Fields written by one update_item call on the cache index; fields the call
does not set are none. -/
structure IndexUpdate where
  file_id : String
  source_etag : Option String
  source_last_modified : Option String
  extract_key : Option String
  document_type : Option String
  processed_json_key : Option String
deriving DecidableEq, Repr

/-- Externally visible effects of one extraction call, in program order. -/
inductive Event
  | headProbe (ok : Bool)
  | cacheRead (key : String)
  | ocrStart
  | ocrPoll
  | putExtract (key : String) (content : String) (ok : Bool)
  | putJson (key : String) (ok : Bool)
  | indexUpdate (u : IndexUpdate) (ok : Bool)
deriving DecidableEq, Repr

/-- Success payload of extract_text_from_s3. -/
structure ExtractOk where
  text : String
  raw_text : String
  confidence : ℚ
  document_type : String
  extraction_method : String
  structured_json : Option SJson
  structured_json_s3_key : Option String
deriving DecidableEq, Repr

/-- Result dictionary of extract_text_from_s3: the success shape or the
failure shape carrying the error message. -/
inductive ExtractResult
  | ok (r : ExtractOk)
  | err (error : String)
deriving DecidableEq, Repr

/-- The cache-hit branch: re-process the cached text, best-effort structured
extraction, and - only when the dict and both identifiers are truthy -
persist the structured JSON (the key is assigned before the put, so it is
returned even when the put fails) and update the index with it. -/
def cache_hit_extract (env : Env) (document_type : String) (uid fid : Option String)
    (cached_text : String) : ExtractResult × List Event :=
  let processed := process_extracted_text cached_text document_type
  let sj := extract_structured_json env.bedrock cached_text document_type
  let persist :=
    if truthySJ sj && truthy uid && truthy fid then
      let pk := processed_key_of document_type (uid.getD "") (fid.getD "")
      let idx :=
        if env.dynamoUpdAvail && truthy fid then
          [Event.indexUpdate ⟨fid.getD "", none, none, none, none, some pk⟩
            (putOk env.dynamoUpd)]
        else []
      (some pk, Event.putJson pk (putOk env.putJson) :: idx)
    else (none, ([] : List Event))
  (ExtractResult.ok
    ⟨processed.processed_text, cached_text, 0, document_type, "cache", sj, persist.1⟩,
   persist.2)

/-- The fresh-extraction path: run the async OCR job; on success, post-process,
best-effort structured extraction, persist the cleaned text under the
deterministic key when one exists (failure swallowed), persist the structured
JSON when the dict and identifiers are truthy (key assigned before the put),
and update the index (failure swallowed) with the ETag, key and - under the
same condition as the put - the structured-JSON key. -/
def fresh_extract (env : Env) (document_type : String)
    (uid fid setag slm : Option String) (ekey : Option String) :
    ExtractResult × List Event :=
  let run := extract_text_async env.ocr
  let ocrEvents := Event.ocrStart :: List.replicate run.polls Event.ocrPoll
  match run.out with
  | .err m => (ExtractResult.err m, ocrEvents)
  | .ok raw conf _ =>
    let processed := process_extracted_text raw document_type
    let sj := extract_structured_json env.bedrock raw document_type
    let putExtractEvents :=
      match ekey with
      | some ek => [Event.putExtract ek processed.processed_text (putOk env.putExtract)]
      | none => []
    let pkAndEvents :=
      if truthySJ sj && truthy uid && truthy fid then
        let pk := processed_key_of document_type (uid.getD "") (fid.getD "")
        (some pk, [Event.putJson pk (putOk env.putJson)])
      else (none, ([] : List Event))
    let idxEvents :=
      if env.dynamoUpdAvail && truthy fid then
        [Event.indexUpdate
          ⟨fid.getD "", some (setag.getD ""), some (slm.getD ""), some (ekey.getD ""),
           some document_type, pkAndEvents.1⟩ (putOk env.dynamoUpd)]
      else []
    (ExtractResult.ok
      ⟨processed.processed_text, raw, conf, document_type, "async", sj, pkAndEvents.1⟩,
     ocrEvents ++ putExtractEvents ++ pkAndEvents.2 ++ idxEvents)

/-- The user_id metadata of the head probe (none when the probe raised). -/
def uidOf (env : Env) : Option String := env.head.bind HeadData.user_id

/-- The file_id metadata of the head probe (none when the probe raised). -/
def fidOf (env : Env) : Option String := env.head.bind HeadData.file_id

/-- The stripped ETag of the head probe (none when the probe raised). -/
def etagOf (env : Env) : Option String := env.head.map HeadData.etag

/-- The LastModified of the head probe (none when the probe raised). -/
def slmOf (env : Env) : Option String := env.head.bind HeadData.last_modified

/-- The deterministic raw-extract key derived from the probed identifiers. -/
def ekeyOf (env : Env) (document_type : String) : Option String :=
  extract_key_of document_type (uidOf env) (fidOf env)

/-- The fresh-extraction path with its arguments derived from the environment,
as the dispatcher invokes it. -/
def fresh_of (env : Env) (document_type : String) : ExtractResult × List Event :=
  fresh_extract env document_type (uidOf env) (fidOf env) (etagOf env) (slmOf env)
    (ekeyOf env document_type)

/-- TextractService.extract_text_from_s3.  A failed head probe leaves all
identifiers unset and the call proceeds without a cache check.  With force
false and a derivable extract key, a matching (or indeterminate) fingerprint
leads to the cached-blob read: a decoded body is a cache hit; a ClientError
falls through to fresh extraction; any other read failure propagates to the
top-level handler, which returns the failure dictionary. -/
def extract_text_from_s3 (env : Env) (document_type : String) (force : Bool) :
    ExtractResult × List Event :=
  match (if force then none else ekeyOf env document_type) with
  | some ek =>
    if etag_matches env.dynamoGet (etagOf env) then
      match env.getCached with
      | .ok content =>
        let res := cache_hit_extract env document_type (uidOf env) (fidOf env) content
        (res.1, Event.headProbe env.head.isSome :: Event.cacheRead ek :: res.2)
      | .clientError _ =>
        let res := fresh_of env document_type
        (res.1, Event.headProbe env.head.isSome :: Event.cacheRead ek :: res.2)
      | .readError m =>
        (ExtractResult.err m, [Event.headProbe env.head.isSome, Event.cacheRead ek])
    else
      let res := fresh_of env document_type
      (res.1, Event.headProbe env.head.isSome :: res.2)
  | none =>
    let res := fresh_of env document_type
    (res.1, Event.headProbe env.head.isSome :: res.2)

/-
Concrete environments used to instantiate the verified properties and to
exhibit counterexamples.
-/

/-- An OCR backend whose job succeeds on the first poll; the scanned page is
blank (no LINE blocks), so no rational division is involved and results stay
kernel-computable. -/
def okPollOcr : OcrEnv :=
  ⟨.ok "job-1", fun _ => .ok .succeeded none, []⟩

/-- A generative-text backend with no configured model ARN. -/
def noBedrock : BedrockEnv :=
  ⟨none, fun _ => .transportErr "unconfigured", fun _ => .parseError⟩

/-- A head probe result carrying both identifiers. -/
def headUF : HeadData :=
  ⟨some "u1", some "f1", "etag-1", some "2024-01-01T00:00:00"⟩

/-- A world where the head probe raises: no identifiers are recoverable. -/
def noHeadEnv : Env :=
  ⟨none, .unavailable, .clientError "NoSuchKey", .ok, .ok, false, .ok, okPollOcr, noBedrock⟩

/-- A world where persisting the raw-extract blob fails but the index update
succeeds. -/
def putFailEnv : Env :=
  ⟨some headUF, .unavailable, .clientError "NoSuchKey", .err "disk full", .ok, true, .ok,
   okPollOcr, noBedrock⟩

/-- A generative-text backend that produces a parsed non-empty dict. -/
def goodBedrock : BedrockEnv :=
  ⟨some "arn:aws:bedrock:model", fun _ => .ok "json-payload",
   fun _ => .dict ⟨[("full_name", "Alice")]⟩⟩

/-- A world where the structured-JSON put fails while everything else works. -/
def jsonPutFailEnv : Env :=
  ⟨some headUF, .unavailable, .clientError "NoSuchKey", .ok, .err "s3 down", true, .ok,
   okPollOcr, goodBedrock⟩

/-- A world whose cache-index fingerprint matches but whose cached-blob read
raises a non-ClientError failure. -/
def readFailEnv : Env :=
  ⟨some headUF, .item (some "etag-1"), .readError "connection reset", .ok, .ok, true, .ok,
   okPollOcr, noBedrock⟩

/-- A world whose cache-index fingerprint matches but whose cached-blob read
raises a ClientError. -/
def cacheMissClientEnv : Env :=
  ⟨some headUF, .item (some "etag-1"), .clientError "Throttling", .ok, .ok, true, .ok,
   okPollOcr, noBedrock⟩

/-- A first call that misses the cache (no blob yet) and persists its result. -/
def cacheMissEnv1 : Env :=
  ⟨some headUF, .unavailable, .clientError "NoSuchKey", .ok, .ok, true, .ok,
   okPollOcr, noBedrock⟩

/-- A second call against the unchanged source: same head data, an index item
matching the fingerprint, and the blob written by the first call. -/
def cacheHitEnv2 : Env :=
  ⟨some headUF, .item (some "etag-1"), .ok "", .ok, .ok, true, .ok, okPollOcr, noBedrock⟩

/-- An OCR backend that never leaves SUBMITTED. -/
def neverOcr : OcrEnv :=
  ⟨.ok "job-2", fun _ => .ok .submitted none, []⟩

/-- A world whose OCR job never reaches a terminal status. -/
def neverEnv : Env :=
  ⟨none, .unavailable, .clientError "NoSuchKey", .ok, .ok, false, .ok, neverOcr, noBedrock⟩

/-- An OCR backend whose job fails immediately with a status message. -/
def failOcr : OcrEnv :=
  ⟨.ok "job-3", fun _ => .ok .failed (some "Document too large"), []⟩

/-- A world whose OCR job reports FAILED. -/
def failEnv : Env :=
  ⟨none, .unavailable, .clientError "NoSuchKey", .ok, .ok, false, .ok, failOcr, noBedrock⟩

/-- A generative-text backend whose transport always fails. -/
def brokenBedrock : BedrockEnv :=
  ⟨some "arn:aws:bedrock:model", fun _ => .transportErr "endpoint unreachable",
   fun _ => .parseError⟩

/-- A world with working OCR but an unreachable generative-text backend. -/
def c8Env : Env :=
  ⟨none, .unavailable, .clientError "NoSuchKey", .ok, .ok, false, .ok, okPollOcr,
   brokenBedrock⟩

/-- A generative-text backend that answers but whose response fails JSON
parsing. -/
def parseFailBedrock : BedrockEnv :=
  ⟨some "arn:aws:bedrock:model", fun _ => .ok "this is not json", fun _ => .parseError⟩

/-- A generative-text backend whose response parses to a non-dict value. -/
def nonDictBedrock : BedrockEnv :=
  ⟨some "arn:aws:bedrock:model", fun _ => .ok "[1, 2, 3]", fun _ => .nonDict⟩

/-- The result every blank-page fresh extraction of these worlds returns. -/
def rBlank : ExtractOk := ⟨"", "", 0, "cv", "async", none, none⟩

/-- The index-update record written by putFailEnv and cacheMissEnv1. -/
def uPutFail : IndexUpdate :=
  ⟨"f1", some "etag-1", some "2024-01-01T00:00:00",
   some "Textract/CV_extract/u1/f1.txt", some "cv", none⟩

/-- The trace of the first, cache-missing call of cacheMissEnv1. -/
def tMiss1 : List Event :=
  [Event.headProbe true, Event.cacheRead "Textract/CV_extract/u1/f1.txt", Event.ocrStart,
   Event.ocrPoll, Event.putExtract "Textract/CV_extract/u1/f1.txt" "" true,
   Event.indexUpdate uPutFail true]

/-- The trace of the force-true call of putFailEnv. -/
def tPutFail : List Event :=
  [Event.headProbe true, Event.ocrStart, Event.ocrPoll,
   Event.putExtract "Textract/CV_extract/u1/f1.txt" "" false,
   Event.indexUpdate uPutFail true]

/-- The result of the force-true call of jsonPutFailEnv. -/
def rJson : ExtractOk :=
  ⟨"", "", 0, "cv", "async", some ⟨[("full_name", "Alice")]⟩,
   some "Processed/CV_Json/u1/f1.json"⟩

/-- The index-update record written by jsonPutFailEnv. -/
def uJson : IndexUpdate :=
  ⟨"f1", some "etag-1", some "2024-01-01T00:00:00",
   some "Textract/CV_extract/u1/f1.txt", some "cv", some "Processed/CV_Json/u1/f1.json"⟩

/-- The trace of the force-true call of jsonPutFailEnv. -/
def tJson : List Event :=
  [Event.headProbe true, Event.ocrStart, Event.ocrPoll,
   Event.putExtract "Textract/CV_extract/u1/f1.txt" "" true,
   Event.putJson "Processed/CV_Json/u1/f1.json" false,
   Event.indexUpdate uJson true]

/-
Dispatch lemmas: the four ways extract_text_from_s3 resolves its cache check.
-/

theorem extract_eq_cache_hit {env : Env} {document_type : String} {force : Bool}
    {ek content : String}
    (hek : (if force then none else ekeyOf env document_type) = some ek)
    (hmatch : etag_matches env.dynamoGet (etagOf env) = true)
    (hget : env.getCached = .ok content) :
    extract_text_from_s3 env document_type force =
      ((cache_hit_extract env document_type (uidOf env) (fidOf env) content).1,
       Event.headProbe env.head.isSome :: Event.cacheRead ek ::
         (cache_hit_extract env document_type (uidOf env) (fidOf env) content).2) := by
  simp only [extract_text_from_s3, hek, hmatch, hget, if_true]

theorem extract_eq_fresh_after_client_error {env : Env} {document_type : String}
    {force : Bool} {ek code : String}
    (hek : (if force then none else ekeyOf env document_type) = some ek)
    (hmatch : etag_matches env.dynamoGet (etagOf env) = true)
    (hget : env.getCached = .clientError code) :
    extract_text_from_s3 env document_type force =
      ((fresh_of env document_type).1,
       Event.headProbe env.head.isSome :: Event.cacheRead ek ::
         (fresh_of env document_type).2) := by
  simp only [extract_text_from_s3, hek, hmatch, hget, if_true]

theorem extract_eq_read_error {env : Env} {document_type : String} {force : Bool}
    {ek m : String}
    (hek : (if force then none else ekeyOf env document_type) = some ek)
    (hmatch : etag_matches env.dynamoGet (etagOf env) = true)
    (hget : env.getCached = .readError m) :
    extract_text_from_s3 env document_type force =
      (ExtractResult.err m,
       [Event.headProbe env.head.isSome, Event.cacheRead ek]) := by
  simp only [extract_text_from_s3, hek, hmatch, hget, if_true]

theorem extract_eq_fresh_of_mismatch {env : Env} {document_type : String} {force : Bool}
    {ek : String}
    (hek : (if force then none else ekeyOf env document_type) = some ek)
    (hmatch : etag_matches env.dynamoGet (etagOf env) = false) :
    extract_text_from_s3 env document_type force =
      ((fresh_of env document_type).1,
       Event.headProbe env.head.isSome :: (fresh_of env document_type).2) := by
  simp only [extract_text_from_s3, hek, hmatch, Bool.false_eq_true, if_false]

theorem extract_eq_fresh_of_no_key {env : Env} {document_type : String} {force : Bool}
    (hek : (if force then none else ekeyOf env document_type) = none) :
    extract_text_from_s3 env document_type force =
      ((fresh_of env document_type).1,
       Event.headProbe env.head.isSome :: (fresh_of env document_type).2) := by
  simp only [extract_text_from_s3, hek]

/-
Analysis of the polling loop.
-/

/-- A poll response that keeps the loop waiting: status SUBMITTED or
IN_PROGRESS. -/
def nonterminalPoll (p : PollResult) : Prop :=
  (∃ m, p = PollResult.ok JobStatus.submitted m) ∨
  (∃ m, p = PollResult.ok JobStatus.inProgress m)

theorem max_polls_eq : max_wait_time / wait_interval = 60 := by decide

theorem pollLoop_step_submitted (env : OcrEnv) (fuel done : Nat) {m : Option String}
    (h : env.poll done = .ok .submitted m) :
    pollLoop env (fuel + 1) done = pollLoop env fuel (done + 1) := by
  simp [pollLoop, h]

theorem pollLoop_step_inprogress (env : OcrEnv) (fuel done : Nat) {m : Option String}
    (h : env.poll done = .ok .inProgress m) :
    pollLoop env (fuel + 1) done = pollLoop env fuel (done + 1) := by
  simp [pollLoop, h]

theorem pollLoop_step_nonterminal (env : OcrEnv) (fuel done : Nat)
    (h : nonterminalPoll (env.poll done)) :
    pollLoop env (fuel + 1) done = pollLoop env fuel (done + 1) := by
  rcases h with ⟨m, hm⟩ | ⟨m, hm⟩
  · exact pollLoop_step_submitted env fuel done hm
  · exact pollLoop_step_inprogress env fuel done hm

theorem pollLoop_step_succeeded (env : OcrEnv) (fuel done : Nat) {m : Option String}
    (h : env.poll done = .ok .succeeded m) :
    pollLoop env (fuel + 1) done = ⟨.succeeded, done + 1, wait_interval * done⟩ := by
  simp [pollLoop, h]

theorem pollLoop_step_failed (env : OcrEnv) (fuel done : Nat) {m : Option String}
    (h : env.poll done = .ok .failed m) :
    pollLoop env (fuel + 1) done =
      ⟨.jobFailed (m.getD "Job failed"), done + 1, wait_interval * done⟩ := by
  simp [pollLoop, h]

theorem pollLoop_timeout (env : OcrEnv)
    (hpoll : ∀ n, nonterminalPoll (env.poll n)) :
    ∀ fuel done, pollLoop env fuel done =
      ⟨.timedOut, fuel + done, wait_interval * (fuel + done)⟩ := by
  intro fuel
  induction fuel with
  | zero => intro done; simp [pollLoop]
  | succ f ih =>
    intro done
    rw [pollLoop_step_nonterminal env f done (hpoll done), ih (done + 1)]
    have h1 : f + (done + 1) = f + 1 + done := by omega
    rw [h1]

theorem pollLoop_shift (env : OcrEnv) :
    ∀ (n fuel done : Nat), n < fuel →
      (∀ i, i < n → nonterminalPoll (env.poll (done + i))) →
      pollLoop env fuel done = pollLoop env (fuel - n) (done + n) := by
  intro n
  induction n with
  | zero => intro fuel done _ _; simp
  | succ k ih =>
    intro fuel done h hnt
    obtain ⟨f, rfl⟩ : ∃ f, fuel = f + 1 := ⟨fuel - 1, by omega⟩
    have h0 : nonterminalPoll (env.poll done) := by
      have := hnt 0 (by omega)
      simpa using this
    have hnt' : ∀ i, i < k → nonterminalPoll (env.poll (done + 1 + i)) := by
      intro i hi
      have h2 : done + 1 + i = done + (i + 1) := by omega
      rw [h2]
      exact hnt (i + 1) (by omega)
    rw [pollLoop_step_nonterminal env f done h0, ih f (done + 1) (by omega) hnt']
    have e1 : f - k = f + 1 - (k + 1) := by omega
    have e2 : done + 1 + k = done + (k + 1) := by omega
    rw [e1, e2]

theorem pollLoop_failed_at (env : OcrEnv) (n : Nat) (msg : Option String)
    (hn : n < max_wait_time / wait_interval)
    (hnt : ∀ i, i < n → nonterminalPoll (env.poll i))
    (hfail : env.poll n = .ok .failed msg) :
    pollLoop env (max_wait_time / wait_interval) 0 =
      ⟨.jobFailed (msg.getD "Job failed"), n + 1, wait_interval * n⟩ := by
  rw [max_polls_eq] at hn ⊢
  have hshift := pollLoop_shift env n 60 0 hn (by simpa using hnt)
  rw [hshift]
  obtain ⟨g, hg⟩ : ∃ g, 60 - n = g + 1 := ⟨60 - n - 1, by omega⟩
  rw [hg]
  rw [pollLoop_step_failed env g (0 + n) (by simpa using hfail)]
  simp

theorem pollLoop_succeeded_at (env : OcrEnv) (n : Nat) (msg : Option String)
    (hn : n < max_wait_time / wait_interval)
    (hnt : ∀ i, i < n → nonterminalPoll (env.poll i))
    (hsucc : env.poll n = .ok .succeeded msg) :
    pollLoop env (max_wait_time / wait_interval) 0 =
      ⟨.succeeded, n + 1, wait_interval * n⟩ := by
  rw [max_polls_eq] at hn ⊢
  have hshift := pollLoop_shift env n 60 0 hn (by simpa using hnt)
  rw [hshift]
  obtain ⟨g, hg⟩ : ∃ g, 60 - n = g + 1 := ⟨60 - n - 1, by omega⟩
  rw [hg]
  rw [pollLoop_step_succeeded env g (0 + n) (by simpa using hsucc)]
  simp

/-
Analysis of _extract_text_async under the three backend behaviours the
verified properties describe.
-/

theorem extract_text_async_timeout (env : OcrEnv) (jid : String)
    (hstart : env.start = .ok jid)
    (hpoll : ∀ n, nonterminalPoll (env.poll n)) :
    extract_text_async env =
      ⟨.err "Textract job timed out", 1, max_wait_time / wait_interval, max_wait_time⟩ := by
  have hl := pollLoop_timeout env hpoll (max_wait_time / wait_interval) 0
  simp only [extract_text_async, hstart, hl]
  rw [max_polls_eq]
  decide

theorem extract_text_async_failed (env : OcrEnv) (jid : String) (n : Nat)
    (msg : Option String)
    (hstart : env.start = .ok jid)
    (hn : n < max_wait_time / wait_interval)
    (hnt : ∀ i, i < n → nonterminalPoll (env.poll i))
    (hfail : env.poll n = .ok .failed msg) :
    extract_text_async env =
      ⟨.err ("Textract job failed: " ++ msg.getD "Job failed"), 1, n + 1,
       wait_interval * n⟩ := by
  have hl := pollLoop_failed_at env n msg hn hnt hfail
  simp only [extract_text_async, hstart, hl]

theorem extract_text_async_succeeded (env : OcrEnv) (jid : String) (n : Nat)
    (msg : Option String)
    (hstart : env.start = .ok jid)
    (hn : n < max_wait_time / wait_interval)
    (hnt : ∀ i, i < n → nonterminalPoll (env.poll i))
    (hsucc : env.poll n = .ok .succeeded msg) :
    extract_text_async env =
      ⟨.ok (joinedText env.finalBlocks) (avgConfidence env.finalBlocks)
        (lineBlocks env.finalBlocks).length, 1, n + 1, wait_interval * n⟩ := by
  have hl := pollLoop_succeeded_at env n msg hn hnt hsucc
  simp only [extract_text_async, hstart, hl]

/-
Shape of the two orchestrator paths.
-/

theorem cache_hit_fst (env : Env) (document_type : String) (uid fid : Option String)
    (content : String) :
    (cache_hit_extract env document_type uid fid content).1 =
      ExtractResult.ok
        ⟨clean_text content, content, 0, document_type, "cache",
         extract_structured_json env.bedrock content document_type,
         if truthySJ (extract_structured_json env.bedrock content document_type) &&
             truthy uid && truthy fid
         then some (processed_key_of document_type (uid.getD "") (fid.getD ""))
         else none⟩ := by
  by_cases hc : (truthySJ (extract_structured_json env.bedrock content document_type) &&
      truthy uid && truthy fid) = true
  · simp [cache_hit_extract, process_extracted_text, hc]
  · simp [cache_hit_extract, process_extracted_text, hc]

theorem cache_hit_snd (env : Env) (document_type : String) (uid fid : Option String)
    (content : String) :
    (cache_hit_extract env document_type uid fid content).2 =
      if truthySJ (extract_structured_json env.bedrock content document_type) &&
          truthy uid && truthy fid then
        Event.putJson (processed_key_of document_type (uid.getD "") (fid.getD ""))
            (putOk env.putJson) ::
          (if env.dynamoUpdAvail && truthy fid then
            [Event.indexUpdate
              ⟨fid.getD "", none, none, none, none,
               some (processed_key_of document_type (uid.getD "") (fid.getD ""))⟩
              (putOk env.dynamoUpd)]
          else [])
      else [] := by
  by_cases hc : (truthySJ (extract_structured_json env.bedrock content document_type) &&
      truthy uid && truthy fid) = true
  · simp [cache_hit_extract, hc]
  · simp [cache_hit_extract, hc]

theorem cache_hit_no_ocr (env : Env) (document_type : String) (uid fid : Option String)
    (content : String) :
    Event.ocrStart ∉ (cache_hit_extract env document_type uid fid content).2 ∧
    Event.ocrPoll ∉ (cache_hit_extract env document_type uid fid content).2 := by
  rw [cache_hit_snd]
  by_cases hc : (truthySJ (extract_structured_json env.bedrock content document_type) &&
      truthy uid && truthy fid) = true
  · by_cases hupd : (env.dynamoUpdAvail && truthy fid) = true
    · simp [hc, hupd]
    · simp [hc, hupd]
  · simp [hc]

theorem fresh_err_eq {env : Env} {document_type : String}
    {uid fid setag slm ekey : Option String} {m : String}
    (hout : (extract_text_async env.ocr).out = .err m) :
    fresh_extract env document_type uid fid setag slm ekey =
      (ExtractResult.err m,
       Event.ocrStart :: List.replicate (extract_text_async env.ocr).polls Event.ocrPoll) := by
  simp only [fresh_extract, hout]

theorem fresh_ok_eq {env : Env} {document_type : String}
    {uid fid setag slm ekey : Option String} {raw : String} {conf : ℚ} {n : Nat}
    (hout : (extract_text_async env.ocr).out = .ok raw conf n) :
    fresh_extract env document_type uid fid setag slm ekey =
      (ExtractResult.ok
        ⟨clean_text raw, raw, conf, document_type, "async",
         extract_structured_json env.bedrock raw document_type,
         if truthySJ (extract_structured_json env.bedrock raw document_type) &&
             truthy uid && truthy fid
         then some (processed_key_of document_type (uid.getD "") (fid.getD ""))
         else none⟩,
       (Event.ocrStart :: List.replicate (extract_text_async env.ocr).polls Event.ocrPoll) ++
       (match ekey with
        | some ek => [Event.putExtract ek (clean_text raw) (putOk env.putExtract)]
        | none => []) ++
       (if truthySJ (extract_structured_json env.bedrock raw document_type) &&
           truthy uid && truthy fid
        then [Event.putJson (processed_key_of document_type (uid.getD "") (fid.getD ""))
          (putOk env.putJson)]
        else []) ++
       (if env.dynamoUpdAvail && truthy fid then
          [Event.indexUpdate
            ⟨fid.getD "", some (setag.getD ""), some (slm.getD ""), some (ekey.getD ""),
             some document_type,
             if truthySJ (extract_structured_json env.bedrock raw document_type) &&
                 truthy uid && truthy fid
             then some (processed_key_of document_type (uid.getD "") (fid.getD ""))
             else none⟩
            (putOk env.dynamoUpd)]
        else [])) := by
  by_cases hc : (truthySJ (extract_structured_json env.bedrock raw document_type) &&
      truthy uid && truthy fid) = true
  · simp [fresh_extract, hout, process_extracted_text, hc]
  · simp [fresh_extract, hout, process_extracted_text, hc]

theorem ocr_reached_fst (env : Env) (document_type : String) (force : Bool)
    (hreach : Event.ocrStart ∈ (extract_text_from_s3 env document_type force).2) :
    (extract_text_from_s3 env document_type force).1 = (fresh_of env document_type).1 := by
  rcases hek : (if force then none else ekeyOf env document_type) with _ | ek
  · rw [extract_eq_fresh_of_no_key hek]
  · cases hmatch : etag_matches env.dynamoGet (etagOf env) with
    | false => rw [extract_eq_fresh_of_mismatch hek hmatch]
    | true =>
      rcases hget : env.getCached with ⟨content⟩ | ⟨code⟩ | ⟨m⟩
      · exfalso
        rw [extract_eq_cache_hit hek hmatch hget] at hreach
        have hno := (cache_hit_no_ocr env document_type (uidOf env) (fidOf env) content).1
        simp only [List.mem_cons] at hreach
        rcases hreach with h | h | h
        · exact absurd h (by simp)
        · exact absurd h (by simp)
        · exact hno h
      · rw [extract_eq_fresh_after_client_error hek hmatch hget]
      · exfalso
        rw [extract_eq_read_error hek hmatch hget] at hreach
        simp at hreach

theorem fresh_has_ocrStart (env : Env) (document_type : String)
    (uid fid setag slm ekey : Option String) :
    Event.ocrStart ∈ (fresh_extract env document_type uid fid setag slm ekey).2 := by
  rcases hout : (extract_text_async env.ocr).out with ⟨raw, conf, n⟩ | ⟨m⟩
  · rw [fresh_ok_eq hout]
    simp
  · rw [fresh_err_eq hout]
    simp

theorem fresh_no_cacheRead (env : Env) (document_type : String)
    (uid fid setag slm ekey : Option String) (k : String) :
    Event.cacheRead k ∉ (fresh_extract env document_type uid fid setag slm ekey).2 := by
  rcases hout : (extract_text_async env.ocr).out with ⟨raw, conf, n⟩ | ⟨m⟩
  · rw [fresh_ok_eq hout]
    rcases ekey with _ | ek <;>
      by_cases hc : (truthySJ (extract_structured_json env.bedrock raw document_type) &&
        truthy uid && truthy fid) = true <;>
      by_cases hupd : (env.dynamoUpdAvail && truthy fid) = true <;>
      simp [hc, hupd, List.mem_replicate]
  · rw [fresh_err_eq hout]
    simp [List.mem_replicate]

theorem cache_hit_no_putExtract (env : Env) (document_type : String)
    (uid fid : Option String) (content k c : String) (ok : Bool) :
    Event.putExtract k c ok ∉ (cache_hit_extract env document_type uid fid content).2 := by
  rw [cache_hit_snd]
  by_cases hc : (truthySJ (extract_structured_json env.bedrock content document_type) &&
      truthy uid && truthy fid) = true
  · by_cases hupd : (env.dynamoUpdAvail && truthy fid) = true
    · simp [hc, hupd]
    · simp [hc, hupd]
  · simp [hc]

theorem cache_hit_indexUpdate_shape (env : Env) (document_type : String)
    (uid fid : Option String) (content : String) (u : IndexUpdate) (b : Bool)
    (hmem : Event.indexUpdate u b ∈ (cache_hit_extract env document_type uid fid content).2) :
    u.extract_key = none := by
  rw [cache_hit_snd] at hmem
  by_cases hc : (truthySJ (extract_structured_json env.bedrock content document_type) &&
      truthy uid && truthy fid) = true
  · by_cases hupd : (env.dynamoUpdAvail && truthy fid) = true
    · simp [hc, hupd] at hmem
      rw [hmem.1]
    · simp [hc, hupd] at hmem
  · simp [hc] at hmem

theorem extract_ok_fst_clean (env : Env) (document_type : String) (force : Bool)
    (r : ExtractOk)
    (h : (extract_text_from_s3 env document_type force).1 = .ok r) :
    r.text = clean_text r.raw_text := by
  have hfresh : (fresh_of env document_type).1 = ExtractResult.ok r →
      r.text = clean_text r.raw_text := by
    intro hf
    unfold fresh_of at hf
    rcases hout : (extract_text_async env.ocr).out with ⟨raw, conf, n⟩ | ⟨m⟩
    · rw [fresh_ok_eq hout] at hf
      simp only at hf
      injection hf with hf
      rw [← hf]
    · rw [fresh_err_eq hout] at hf
      simp at hf
  rcases hek : (if force then none else ekeyOf env document_type) with _ | ek
  · rw [extract_eq_fresh_of_no_key hek] at h
    exact hfresh h
  · cases hmatch : etag_matches env.dynamoGet (etagOf env) with
    | false =>
      rw [extract_eq_fresh_of_mismatch hek hmatch] at h
      exact hfresh h
    | true =>
      rcases hget : env.getCached with ⟨content⟩ | ⟨code⟩ | ⟨m⟩
      · rw [extract_eq_cache_hit hek hmatch hget] at h
        simp only at h
        rw [cache_hit_fst] at h
        injection h with h
        rw [← h]
      · rw [extract_eq_fresh_after_client_error hek hmatch hget] at h
        exact hfresh h
      · rw [extract_eq_read_error hek hmatch hget] at h
        simp at h

/-- An occurrence of e1 strictly before an occurrence of e2 in the trace t. -/
def eventBefore (e1 e2 : Event) (t : List Event) : Prop :=
  ∃ l1 l2 l3, t = l1 ++ e1 :: l2 ++ e2 :: l3

theorem eventBefore_append_left (e1 e2 : Event) (pre t : List Event)
    (h : eventBefore e1 e2 t) : eventBefore e1 e2 (pre ++ t) := by
  obtain ⟨l1, l2, l3, rfl⟩ := h
  exact ⟨pre ++ l1, l2, l3, by simp⟩

theorem fresh_index_before (env : Env) (document_type : String)
    (uid fid setag slm ekey : Option String) (u : IndexUpdate) (b : Bool) (ek : String)
    (hmem : Event.indexUpdate u b ∈ (fresh_extract env document_type uid fid setag slm ekey).2)
    (hku : u.extract_key = some ek) (hne : ek ≠ "") :
    ∃ c ok, eventBefore (Event.putExtract ek c ok) (Event.indexUpdate u b)
      (fresh_extract env document_type uid fid setag slm ekey).2 ∧
      c = clean_text c := by
  rcases hout : (extract_text_async env.ocr).out with ⟨raw, conf, n⟩ | ⟨m⟩
  · rw [fresh_ok_eq hout] at hmem ⊢
    by_cases hupd : (env.dynamoUpdAvail && truthy fid) = true
    · have humem : Event.indexUpdate u b ∈
          (if env.dynamoUpdAvail && truthy fid then
            [Event.indexUpdate
              ⟨fid.getD "", some (setag.getD ""), some (slm.getD ""), some (ekey.getD ""),
               some document_type,
               if truthySJ (extract_structured_json env.bedrock raw document_type) &&
                   truthy uid && truthy fid
               then some (processed_key_of document_type (uid.getD "") (fid.getD ""))
               else none⟩
              (putOk env.dynamoUpd)]
          else []) := by
        by_cases hc : (truthySJ (extract_structured_json env.bedrock raw document_type) &&
            truthy uid && truthy fid) = true <;>
          rcases ekey with _ | ek0 <;>
          simpa [hc, hupd, List.mem_replicate] using hmem
      rw [if_pos hupd] at humem
      simp only [List.mem_singleton] at humem
      injection humem with hu hb
      have hekey : ekey = some ek := by
        rw [hu] at hku
        simp at hku
        rcases hekey0 : ekey with _ | ek0
        · exfalso
          rw [hekey0] at hku
          simp at hku
          exact hne hku.symm
        · rw [hekey0] at hku
          simp at hku
          exact congrArg Option.some hku
      subst hekey
      refine ⟨clean_text raw, putOk env.putExtract, ?_, (clean_text_idem raw).symm⟩
      rw [hu, hb]
      refine ⟨Event.ocrStart :: List.replicate (extract_text_async env.ocr).polls Event.ocrPoll,
        (if truthySJ (extract_structured_json env.bedrock raw document_type) &&
            truthy uid && truthy fid
         then [Event.putJson (processed_key_of document_type (uid.getD "") (fid.getD ""))
           (putOk env.putJson)]
         else []), [], ?_⟩
      simp [hupd]
    · exfalso
      by_cases hc : (truthySJ (extract_structured_json env.bedrock raw document_type) &&
          truthy uid && truthy fid) = true <;>
        rcases ekey with _ | ek0 <;>
        simp [hc, hupd, List.mem_replicate] at hmem
  · rw [fresh_err_eq hout] at hmem
    simp [List.mem_replicate] at hmem

/-
The verified properties.
-/

/-- C1: against an unchanged source (same head data, matching fingerprint,
cached blob holding the text returned by the first call), a second
force-false call is served from the cache: it returns byte-identical text and
performs no OCR-backend call; this rests on the cleaner being idempotent,
which is proved for every string. -/
theorem C1_cache_idempotence
    (env1 env2 : Env) (document_type : String) (r1 : ExtractOk) (t1 : List Event)
    (h1 : extract_text_from_s3 env1 document_type false = (.ok r1, t1))
    (_hhead : env2.head = env1.head)
    (hek : ∃ ek, ekeyOf env2 document_type = some ek)
    (hmatch : etag_matches env2.dynamoGet (etagOf env2) = true)
    (hblob : env2.getCached = .ok r1.text) :
    (∀ s : String, clean_text (clean_text s) = clean_text s) ∧
    ∃ r2 t2, extract_text_from_s3 env2 document_type false = (.ok r2, t2) ∧
      r2.text = r1.text ∧ r2.extraction_method = "cache" ∧
      Event.ocrStart ∉ t2 ∧ Event.ocrPoll ∉ t2 := by
  obtain ⟨ek, hekv⟩ := hek
  have hek' : (if false then none else ekeyOf env2 document_type) = some ek := by
    simpa using hekv
  have hfix : r1.text = clean_text r1.raw_text :=
    extract_ok_fst_clean env1 document_type false r1 (by rw [h1])
  have hdisp := extract_eq_cache_hit hek' hmatch hblob
  refine ⟨clean_text_idem, ?_⟩
  rw [hdisp, cache_hit_fst]
  refine ⟨_, _, rfl, ?_, rfl, ?_, ?_⟩
  · show clean_text r1.text = r1.text
    rw [hfix, clean_text_idem, ← hfix]
  · intro hmem
    simp only [List.mem_cons] at hmem
    rcases hmem with h | h | h
    · exact absurd h (by simp)
    · exact absurd h (by simp)
    · exact (cache_hit_no_ocr env2 document_type (uidOf env2) (fidOf env2) r1.text).1 h
  · intro hmem
    simp only [List.mem_cons] at hmem
    rcases hmem with h | h | h
    · exact absurd h (by simp)
    · exact absurd h (by simp)
    · exact (cache_hit_no_ocr env2 document_type (uidOf env2) (fidOf env2) r1.text).2 h

/-- C3: when the OCR backend never reports a terminal status, the call that
reaches OCR performs exactly max_wait_time / wait_interval polls, sleeps
exactly the 300-second ceiling (within the ceiling plus one interval), and
returns the timeout failure rather than looping forever. -/
theorem C3_timeout_bound (env : Env) (document_type : String) (force : Bool)
    (jid : String)
    (hstart : env.ocr.start = .ok jid)
    (hpoll : ∀ n, nonterminalPoll (env.ocr.poll n))
    (hreach : Event.ocrStart ∈ (extract_text_from_s3 env document_type force).2) :
    (extract_text_from_s3 env document_type force).1 =
      ExtractResult.err "Textract job timed out" ∧
    (extract_text_async env.ocr).polls = max_wait_time / wait_interval ∧
    (extract_text_async env.ocr).slept = max_wait_time ∧
    (extract_text_async env.ocr).slept ≤ max_wait_time + wait_interval := by
  have hasync := extract_text_async_timeout env.ocr jid hstart hpoll
  refine ⟨?_, by rw [hasync], by rw [hasync], by rw [hasync]; decide⟩
  rw [ocr_reached_fst env document_type force hreach]
  unfold fresh_of
  rw [fresh_err_eq (by rw [hasync])]

/-- C6: a FAILED poll makes the call fail, and its error message carries the
backend StatusMessage verbatim after the fixed failure preamble. -/
theorem C6_failed_status (env : Env) (document_type : String) (force : Bool)
    (jid m : String) (n : Nat)
    (hstart : env.ocr.start = .ok jid)
    (hn : n < max_wait_time / wait_interval)
    (hnt : ∀ i, i < n → nonterminalPoll (env.ocr.poll i))
    (hfail : env.ocr.poll n = .ok .failed (some m))
    (hreach : Event.ocrStart ∈ (extract_text_from_s3 env document_type force).2) :
    (extract_text_from_s3 env document_type force).1 =
      ExtractResult.err ("Textract job failed: " ++ m) := by
  have hasync := extract_text_async_failed env.ocr jid n (some m) hstart hn hnt hfail
  rw [ocr_reached_fst env document_type force hreach]
  unfold fresh_of
  rw [fresh_err_eq (by rw [hasync])]
  rfl

/-- C7: once the job reaches SUCCEEDED, the reported text is the newline-join
of the LINE texts and the confidence is their arithmetic mean; zero detected
lines makes the whole call return a successful result with empty text and
confidence zero. -/
theorem C7_mean_confidence_blank (env : Env) (document_type : String) (force : Bool)
    (jid : String) (n : Nat) (msg : Option String)
    (hstart : env.ocr.start = .ok jid)
    (hn : n < max_wait_time / wait_interval)
    (hnt : ∀ i, i < n → nonterminalPoll (env.ocr.poll i))
    (hsucc : env.ocr.poll n = .ok .succeeded msg)
    (hreach : Event.ocrStart ∈ (extract_text_from_s3 env document_type force).2) :
    (extract_text_async env.ocr).out =
      AsyncOut.ok (joinedText env.ocr.finalBlocks) (avgConfidence env.ocr.finalBlocks)
        (lineBlocks env.ocr.finalBlocks).length ∧
    (lineBlocks env.ocr.finalBlocks ≠ [] →
      avgConfidence env.ocr.finalBlocks =
        ((lineBlocks env.ocr.finalBlocks).map Block.confidence).sum /
          (((lineBlocks env.ocr.finalBlocks).map Block.confidence).length : ℚ)) ∧
    (lineBlocks env.ocr.finalBlocks = [] →
      ∃ r, (extract_text_from_s3 env document_type force).1 = ExtractResult.ok r ∧
        r.text = "" ∧ r.raw_text = "" ∧ r.confidence = 0) := by
  have hasync := extract_text_async_succeeded env.ocr jid n msg hstart hn hnt hsucc
  refine ⟨by rw [hasync], ?_, ?_⟩
  · intro hne
    have hlen : ((lineBlocks env.ocr.finalBlocks).map Block.confidence).length ≠ 0 := by
      simp [List.length_map, List.length_eq_zero, hne]
    unfold avgConfidence
    rw [if_neg hlen]
  · intro hempty
    have hjoin : joinedText env.ocr.finalBlocks = "" := by
      simp only [joinedText, hempty, List.map_nil]
      rfl
    have havg : avgConfidence env.ocr.finalBlocks = 0 := by
      simp [avgConfidence, hempty]
    have hout : (extract_text_async env.ocr).out =
        AsyncOut.ok "" 0 (lineBlocks env.ocr.finalBlocks).length := by
      rw [hasync]
      simp [hjoin, havg]
    refine ⟨⟨clean_text "", "", 0, document_type, "async",
      extract_structured_json env.bedrock "" document_type,
      if truthySJ (extract_structured_json env.bedrock "" document_type) &&
          truthy (uidOf env) && truthy (fidOf env)
      then some (processed_key_of document_type ((uidOf env).getD "") ((fidOf env).getD ""))
      else none⟩, ?_, rfl, rfl, rfl⟩
    rw [ocr_reached_fst env document_type force hreach]
    unfold fresh_of
    rw [fresh_ok_eq hout]

/-- Every way the embedded structured-data step can fail for a given raw text
and document type: no model ARN configured, a transport error from converse,
a JSON-parse failure on the preprocessed response, or a parsed value that is
not a dict.  These are exactly the paths on which the Python function returns
None instead of raising. -/
def structuredStepFailed (benv : BedrockEnv) (raw_text document_type : String) : Prop :=
  benv.modelArn = none ∨
  (∃ em, benv.converse (prompt_for document_type raw_text) = ConverseOut.transportErr em) ∨
  (∃ rtext, benv.converse (prompt_for document_type raw_text) = ConverseOut.ok rtext ∧
    benv.parse (strip_fences rtext) = ParseOut.parseError) ∨
  (∃ rtext, benv.converse (prompt_for document_type raw_text) = ConverseOut.ok rtext ∧
    benv.parse (strip_fences rtext) = ParseOut.nonDict)

theorem extract_structured_json_none_of_failed (benv : BedrockEnv)
    (raw_text document_type : String)
    (hfail : structuredStepFailed benv raw_text document_type) :
    extract_structured_json benv raw_text document_type = none := by
  unfold extract_structured_json
  rcases harn : benv.modelArn with _ | a
  · rfl
  · rcases hfail with harn2 | ⟨em, hconv⟩ | ⟨rtext, hconv, hparse⟩ | ⟨rtext, hconv, hparse⟩
    · rw [harn] at harn2
      exact absurd harn2 (by simp)
    · rw [hconv]
    · simp [hconv, hparse]
    · simp [hconv, hparse]

/-- C8: the structured-data step is a total function into an optional dict,
and on every one of its failure modes - missing model ARN, transport error,
JSON-parse failure, parsed non-dict - it returns none for any backend, input
text and document type; and for every generative-text backend whatsoever the
call still returns a successful result whose text is the populated cleaned
OCR text, with structured_json exactly the step's outcome - hence none
whenever the step failed. -/
theorem C8_structured_best_effort (env : Env) (document_type : String) (force : Bool)
    (jid : String) (n : Nat) (msg : Option String)
    (hstart : env.ocr.start = .ok jid)
    (hn : n < max_wait_time / wait_interval)
    (hnt : ∀ i, i < n → nonterminalPoll (env.ocr.poll i))
    (hsucc : env.ocr.poll n = .ok .succeeded msg)
    (hreach : Event.ocrStart ∈ (extract_text_from_s3 env document_type force).2) :
    (∀ (benv : BedrockEnv) (raw dt2 : String),
      structuredStepFailed benv raw dt2 →
        extract_structured_json benv raw dt2 = none) ∧
    ∃ r, (extract_text_from_s3 env document_type force).1 = ExtractResult.ok r ∧
      r.text = clean_text (joinedText env.ocr.finalBlocks) ∧
      r.raw_text = joinedText env.ocr.finalBlocks ∧
      r.structured_json =
        extract_structured_json env.bedrock (joinedText env.ocr.finalBlocks)
          document_type ∧
      (structuredStepFailed env.bedrock (joinedText env.ocr.finalBlocks) document_type →
        r.structured_json = none) := by
  have hasync := extract_text_async_succeeded env.ocr jid n msg hstart hn hnt hsucc
  have hout : (extract_text_async env.ocr).out =
      AsyncOut.ok (joinedText env.ocr.finalBlocks) (avgConfidence env.ocr.finalBlocks)
        (lineBlocks env.ocr.finalBlocks).length := by rw [hasync]
  refine ⟨extract_structured_json_none_of_failed, ?_⟩
  refine ⟨⟨clean_text (joinedText env.ocr.finalBlocks), joinedText env.ocr.finalBlocks,
    avgConfidence env.ocr.finalBlocks, document_type, "async",
    extract_structured_json env.bedrock (joinedText env.ocr.finalBlocks) document_type,
    if truthySJ (extract_structured_json env.bedrock (joinedText env.ocr.finalBlocks)
        document_type) && truthy (uidOf env) && truthy (fidOf env)
    then some (processed_key_of document_type ((uidOf env).getD "") ((fidOf env).getD ""))
    else none⟩, ?_, rfl, rfl, rfl, ?_⟩
  · rw [ocr_reached_fst env document_type force hreach]
    unfold fresh_of
    rw [fresh_ok_eq hout]
  · intro hfail
    exact extract_structured_json_none_of_failed env.bedrock _ document_type hfail

/-- C4 counterexample: in a world where the head probe fails, the call does
not fail with a source-not-found error: it submits the OCR job anyway and here
even returns a successful result. -/
theorem C4_source_not_found_counterexample :
    noHeadEnv.head = none ∧
    (extract_text_from_s3 noHeadEnv "cv" false).1 =
      ExtractResult.ok ⟨"", "", 0, "cv", "async", none, none⟩ ∧
    Event.ocrStart ∈ (extract_text_from_s3 noHeadEnv "cv" false).2 :=
  ⟨rfl, by decide, by decide⟩

/-- C4 amended: when the head probe fails, the call performs no cache read
and always proceeds to submit the OCR job; its outcome is exactly that of the
fresh-extraction path (so any failure is the OCR path's own error result, not
a source-not-found error raised before submission). -/
theorem C4_head_failure_amended (env : Env) (document_type : String) (force : Bool)
    (hhead : env.head = none) :
    Event.ocrStart ∈ (extract_text_from_s3 env document_type force).2 ∧
    (∀ k, Event.cacheRead k ∉ (extract_text_from_s3 env document_type force).2) ∧
    (extract_text_from_s3 env document_type force).1 = (fresh_of env document_type).1 := by
  have hek : (if force then none else ekeyOf env document_type) = none := by
    cases force
    · simp [ekeyOf, uidOf, fidOf, hhead, extract_key_of]
    · simp
  rw [extract_eq_fresh_of_no_key hek]
  refine ⟨?_, ?_, rfl⟩
  · exact List.mem_cons_of_mem _ (fresh_has_ocrStart env document_type _ _ _ _ _)
  · intro k hmem
    simp only [List.mem_cons] at hmem
    rcases hmem with h | h
    · exact absurd h (by simp)
    · exact fresh_no_cacheRead env document_type _ _ _ _ _ k h

/-- C9 counterexample: a non-ClientError failure while reading the cached
blob is not treated as a cache miss: the call itself fails with that error
and never reaches the OCR backend. -/
theorem C9_cache_read_failure_counterexample :
    readFailEnv.getCached = GetObjectOut.readError "connection reset" ∧
    extract_text_from_s3 readFailEnv "cv" false =
      (ExtractResult.err "connection reset",
       [Event.headProbe true, Event.cacheRead "Textract/CV_extract/u1/f1.txt"]) :=
  ⟨rfl, by decide⟩

/-- C9 amended: under a matching fingerprint, a ClientError from the cached
blob read (missing blob included) is treated as a cache miss and extraction
continues to OCR, but a non-ClientError read failure propagates to the
top-level handler: the call returns that failure and performs no OCR call. -/
theorem C9_cache_read_failure_amended (env : Env) (document_type : String) (ek : String)
    (hek : ekeyOf env document_type = some ek)
    (hmatch : etag_matches env.dynamoGet (etagOf env) = true) :
    (∀ code, env.getCached = .clientError code →
      (extract_text_from_s3 env document_type false).1 = (fresh_of env document_type).1 ∧
      Event.ocrStart ∈ (extract_text_from_s3 env document_type false).2) ∧
    (∀ m, env.getCached = .readError m →
      (extract_text_from_s3 env document_type false).1 = ExtractResult.err m ∧
      Event.ocrStart ∉ (extract_text_from_s3 env document_type false).2) := by
  have hek' : (if false then none else ekeyOf env document_type) = some ek := by
    simpa using hek
  constructor
  · intro code hget
    rw [extract_eq_fresh_after_client_error hek' hmatch hget]
    refine ⟨rfl, ?_⟩
    exact List.mem_cons_of_mem _
      (List.mem_cons_of_mem _ (fresh_has_ocrStart env document_type _ _ _ _ _))
  · intro m hget
    rw [extract_eq_read_error hek' hmatch hget]
    exact ⟨rfl, by simp⟩

/-- C2 counterexample: persisting the raw-extract blob fails (the put is
recorded with ok false), yet the very same call still upserts the index with
ok true, and the upsert references the key of the blob whose write failed. -/
theorem C2_storage_before_index_counterexample :
    putFailEnv.putExtract = PutOut.err "disk full" ∧
    (extract_text_from_s3 putFailEnv "cv" true).2 =
      [Event.headProbe true, Event.ocrStart, Event.ocrPoll,
       Event.putExtract "Textract/CV_extract/u1/f1.txt" "" false,
       Event.indexUpdate ⟨"f1", some "etag-1", some "2024-01-01T00:00:00",
         some "Textract/CV_extract/u1/f1.txt", some "cv", none⟩ true] :=
  ⟨rfl, by decide⟩

/-- C2 amended: whenever a successful index upsert records a non-empty
raw-extract key, a put of exactly that key was attempted strictly earlier in
the same call (and its content is cleaned text); however the upsert is not
conditioned on that put succeeding. -/
theorem C2_storage_before_index_amended (env : Env) (document_type : String)
    (force : Bool) (u : IndexUpdate) (b : Bool) (ek : String)
    (hmem : Event.indexUpdate u b ∈ (extract_text_from_s3 env document_type force).2)
    (hku : u.extract_key = some ek) (hne : ek ≠ "") :
    ∃ c ok, eventBefore (Event.putExtract ek c ok) (Event.indexUpdate u b)
      (extract_text_from_s3 env document_type force).2 ∧ c = clean_text c := by
  rcases hek : (if force then none else ekeyOf env document_type) with _ | ek0
  · rw [extract_eq_fresh_of_no_key hek] at hmem ⊢
    simp only [List.mem_cons] at hmem
    rcases hmem with h | h
    · exact absurd h (by simp)
    · obtain ⟨c, ok, hbef, hcc⟩ :=
        fresh_index_before env document_type _ _ _ _ _ u b ek h hku hne
      exact ⟨c, ok,
        eventBefore_append_left _ _ [Event.headProbe env.head.isSome] _ hbef, hcc⟩
  · cases hmatch : etag_matches env.dynamoGet (etagOf env) with
    | false =>
      rw [extract_eq_fresh_of_mismatch hek hmatch] at hmem ⊢
      simp only [List.mem_cons] at hmem
      rcases hmem with h | h
      · exact absurd h (by simp)
      · obtain ⟨c, ok, hbef, hcc⟩ :=
          fresh_index_before env document_type _ _ _ _ _ u b ek h hku hne
        exact ⟨c, ok,
          eventBefore_append_left _ _ [Event.headProbe env.head.isSome] _ hbef, hcc⟩
    | true =>
      rcases hget : env.getCached with ⟨content⟩ | ⟨code⟩ | ⟨m⟩
      · rw [extract_eq_cache_hit hek hmatch hget] at hmem
        simp only [List.mem_cons] at hmem
        rcases hmem with h | h | h
        · exact absurd h (by simp)
        · exact absurd h (by simp)
        · have hnone :=
            cache_hit_indexUpdate_shape env document_type (uidOf env) (fidOf env) content u b h
          rw [hnone] at hku
          exact absurd hku (by simp)
      · rw [extract_eq_fresh_after_client_error hek hmatch hget] at hmem ⊢
        simp only [List.mem_cons] at hmem
        rcases hmem with h | h | h
        · exact absurd h (by simp)
        · exact absurd h (by simp)
        · obtain ⟨c, ok, hbef, hcc⟩ :=
            fresh_index_before env document_type _ _ _ _ _ u b ek h hku hne
          exact ⟨c, ok,
            eventBefore_append_left _ _
              [Event.headProbe env.head.isSome, Event.cacheRead ek0] _ hbef, hcc⟩
      · rw [extract_eq_read_error hek hmatch hget] at hmem
        simp at hmem

/-- C5 counterexample: the structured-JSON put fails (recorded with ok false),
yet both the returned structured_json_s3_key and the index upsert are
populated with the key of the blob that was never durably written. -/
theorem C5_structured_key_counterexample :
    jsonPutFailEnv.putJson = PutOut.err "s3 down" ∧
    (extract_text_from_s3 jsonPutFailEnv "cv" true).1 =
      ExtractResult.ok ⟨"", "", 0, "cv", "async", some ⟨[("full_name", "Alice")]⟩,
        some "Processed/CV_Json/u1/f1.json"⟩ ∧
    Event.putJson "Processed/CV_Json/u1/f1.json" false ∈
      (extract_text_from_s3 jsonPutFailEnv "cv" true).2 :=
  ⟨rfl, by decide, by decide⟩

theorem fresh_key_iff (env : Env) (document_type : String)
    (uid fid setag slm ekey : Option String) (r : ExtractOk)
    (h : (fresh_extract env document_type uid fid setag slm ekey).1 = .ok r) :
    r.structured_json_s3_key.isSome =
      (truthySJ r.structured_json && truthy uid && truthy fid) ∧
    ∀ pk, r.structured_json_s3_key = some pk →
      ∃ ok, Event.putJson pk ok ∈
        (fresh_extract env document_type uid fid setag slm ekey).2 := by
  rcases hout : (extract_text_async env.ocr).out with ⟨raw, conf, n⟩ | ⟨m⟩
  · rw [fresh_ok_eq hout] at h ⊢
    simp only at h
    injection h with h
    subst h
    cases hc : (truthySJ (extract_structured_json env.bedrock raw document_type) &&
        truthy uid && truthy fid) with
    | true =>
      refine ⟨by simp [hc], ?_⟩
      intro pk hpk
      simp at hpk
      subst hpk
      exact ⟨putOk env.putJson, by simp⟩
    | false =>
      refine ⟨by simp [hc], ?_⟩
      intro pk hpk
      simp at hpk
  · rw [fresh_err_eq hout] at h
    simp at h

/-- C5 amended: on every successful call, the structured-JSON key of the
result is populated exactly when a non-empty structured dict was produced and
both identifiers are truthy - that is, exactly when the put of that blob was
attempted in the same call - regardless of whether the put succeeded. -/
theorem C5_structured_key_amended (env : Env) (document_type : String) (force : Bool)
    (r : ExtractOk) (t : List Event)
    (h : extract_text_from_s3 env document_type force = (.ok r, t)) :
    r.structured_json_s3_key.isSome =
      (truthySJ r.structured_json && truthy (uidOf env) && truthy (fidOf env)) ∧
    ∀ pk, r.structured_json_s3_key = some pk → ∃ ok, Event.putJson pk ok ∈ t := by
  rcases hek : (if force then none else ekeyOf env document_type) with _ | ek0
  · rw [extract_eq_fresh_of_no_key hek, Prod.mk.injEq] at h
    obtain ⟨h1, h2⟩ := h
    subst h2
    unfold fresh_of at h1 ⊢
    obtain ⟨ha, hb⟩ := fresh_key_iff env document_type _ _ _ _ _ r h1
    refine ⟨ha, ?_⟩
    intro pk hpk
    obtain ⟨ok, hmem⟩ := hb pk hpk
    exact ⟨ok, List.mem_cons_of_mem _ hmem⟩
  · cases hmatch : etag_matches env.dynamoGet (etagOf env) with
    | false =>
      rw [extract_eq_fresh_of_mismatch hek hmatch, Prod.mk.injEq] at h
      obtain ⟨h1, h2⟩ := h
      subst h2
      unfold fresh_of at h1 ⊢
      obtain ⟨ha, hb⟩ := fresh_key_iff env document_type _ _ _ _ _ r h1
      refine ⟨ha, ?_⟩
      intro pk hpk
      obtain ⟨ok, hmem⟩ := hb pk hpk
      exact ⟨ok, List.mem_cons_of_mem _ hmem⟩
    | true =>
      rcases hget : env.getCached with ⟨content⟩ | ⟨code⟩ | ⟨m⟩
      · rw [extract_eq_cache_hit hek hmatch hget, Prod.mk.injEq] at h
        obtain ⟨h1, h2⟩ := h
        subst h2
        rw [cache_hit_fst] at h1
        injection h1 with h1
        subst h1
        cases hc : (truthySJ (extract_structured_json env.bedrock content document_type) &&
            truthy (uidOf env) && truthy (fidOf env)) with
        | true =>
          refine ⟨by simp [hc], ?_⟩
          intro pk hpk
          simp at hpk
          subst hpk
          refine ⟨putOk env.putJson, ?_⟩
          rw [cache_hit_snd]
          simp [hc]
        | false =>
          refine ⟨by simp [hc], ?_⟩
          intro pk hpk
          simp at hpk
      · rw [extract_eq_fresh_after_client_error hek hmatch hget, Prod.mk.injEq] at h
        obtain ⟨h1, h2⟩ := h
        subst h2
        unfold fresh_of at h1 ⊢
        obtain ⟨ha, hb⟩ := fresh_key_iff env document_type _ _ _ _ _ r h1
        refine ⟨ha, ?_⟩
        intro pk hpk
        obtain ⟨ok, hmem⟩ := hb pk hpk
        exact ⟨ok, List.mem_cons_of_mem _ (List.mem_cons_of_mem _ hmem)⟩
      · rw [extract_eq_read_error hek hmatch hget, Prod.mk.injEq] at h
        obtain ⟨h1, _⟩ := h
        exact absurd h1 (by simp)

theorem fresh_putExtract_content (env : Env) (document_type : String)
    (uid fid setag slm ekey : Option String) (r : ExtractOk) (k c : String) (ok : Bool)
    (h : (fresh_extract env document_type uid fid setag slm ekey).1 = .ok r)
    (hmem : Event.putExtract k c ok ∈
      (fresh_extract env document_type uid fid setag slm ekey).2) :
    c = r.text := by
  rcases hout : (extract_text_async env.ocr).out with ⟨raw, conf, n⟩ | ⟨m⟩
  · rw [fresh_ok_eq hout] at h hmem
    simp only at h
    injection h with h
    subst h
    rcases ekey with _ | ek1
    · exfalso
      by_cases hc : (truthySJ (extract_structured_json env.bedrock raw document_type) &&
          truthy uid && truthy fid) = true <;>
        by_cases hupd : (env.dynamoUpdAvail && truthy fid) = true <;>
        simp [hc, hupd, List.mem_replicate] at hmem
    · by_cases hc : (truthySJ (extract_structured_json env.bedrock raw document_type) &&
          truthy uid && truthy fid) = true <;>
        by_cases hupd : (env.dynamoUpdAvail && truthy fid) = true <;>
        (simp [hc, hupd, List.mem_replicate] at hmem; exact hmem.2.1)
  · rw [fresh_err_eq hout] at h
    simp at h

/-- C10: cleaned text never contains the digit zero or the pipe character
(every pipe becomes I and every zero becomes O); the same cleaned text is both
the input handed to key-information extraction and the processed text, the
content of every raw-extract blob put equals the returned text, and a sample
email-and-year string is visibly altered. -/
theorem C10_clean_removes_zero_and_pipe :
    (∀ s : String, '0' ∉ (clean_text s).data ∧ '|' ∉ (clean_text s).data) ∧
    (∀ raw document_type,
      (process_extracted_text raw document_type).key_info_input = clean_text raw ∧
      (process_extracted_text raw document_type).processed_text = clean_text raw) ∧
    (∀ (env : Env) (document_type : String) (force : Bool) (r : ExtractOk)
        (t : List Event) (k c : String) (ok : Bool),
      extract_text_from_s3 env document_type force = (.ok r, t) →
      Event.putExtract k c ok ∈ t → c = r.text) ∧
    clean_text "Email: a0@b.com year 2020" = "Email: aO@b.com year 2O2O" := by
  refine ⟨clean_text_no_zero_no_pipe, fun raw dt => ⟨rfl, rfl⟩, ?_, by decide⟩
  intro env document_type force r t k c ok h hmem
  rcases hek : (if force then none else ekeyOf env document_type) with _ | ek0
  · rw [extract_eq_fresh_of_no_key hek, Prod.mk.injEq] at h
    obtain ⟨h1, h2⟩ := h
    subst h2
    simp only [List.mem_cons] at hmem
    rcases hmem with hm | hm
    · exact absurd hm (by simp)
    · unfold fresh_of at h1 hm
      exact fresh_putExtract_content env document_type _ _ _ _ _ r k c ok h1 hm
  · cases hmatch : etag_matches env.dynamoGet (etagOf env) with
    | false =>
      rw [extract_eq_fresh_of_mismatch hek hmatch, Prod.mk.injEq] at h
      obtain ⟨h1, h2⟩ := h
      subst h2
      simp only [List.mem_cons] at hmem
      rcases hmem with hm | hm
      · exact absurd hm (by simp)
      · unfold fresh_of at h1 hm
        exact fresh_putExtract_content env document_type _ _ _ _ _ r k c ok h1 hm
    | true =>
      rcases hget : env.getCached with ⟨content⟩ | ⟨code⟩ | ⟨m⟩
      · rw [extract_eq_cache_hit hek hmatch hget, Prod.mk.injEq] at h
        obtain ⟨h1, h2⟩ := h
        subst h2
        simp only [List.mem_cons] at hmem
        rcases hmem with hm | hm | hm
        · exact absurd hm (by simp)
        · exact absurd hm (by simp)
        · exact absurd hm
            (cache_hit_no_putExtract env document_type (uidOf env) (fidOf env) content k c ok)
      · rw [extract_eq_fresh_after_client_error hek hmatch hget, Prod.mk.injEq] at h
        obtain ⟨h1, h2⟩ := h
        subst h2
        simp only [List.mem_cons] at hmem
        rcases hmem with hm | hm | hm
        · exact absurd hm (by simp)
        · exact absurd hm (by simp)
        · unfold fresh_of at h1 hm
          exact fresh_putExtract_content env document_type _ _ _ _ _ r k c ok h1 hm
      · rw [extract_eq_read_error hek hmatch hget, Prod.mk.injEq] at h
        obtain ⟨h1, _⟩ := h
        exact absurd h1 (by simp)

/-
Concrete instantiations of the verified properties.
-/

theorem C1_cache_idempotence_witness :
    (∀ s : String, clean_text (clean_text s) = clean_text s) ∧
    ∃ r2 t2, extract_text_from_s3 cacheHitEnv2 "cv" false = (.ok r2, t2) ∧
      r2.text = rBlank.text ∧ r2.extraction_method = "cache" ∧
      Event.ocrStart ∉ t2 ∧ Event.ocrPoll ∉ t2 :=
  C1_cache_idempotence cacheMissEnv1 cacheHitEnv2 "cv" rBlank tMiss1 (by decide) rfl
    ⟨"Textract/CV_extract/u1/f1.txt", by decide⟩ (by decide) rfl

theorem C2_storage_before_index_amended_witness :
    ∃ c ok, eventBefore (Event.putExtract "Textract/CV_extract/u1/f1.txt" c ok)
      (Event.indexUpdate uPutFail true)
      (extract_text_from_s3 putFailEnv "cv" true).2 ∧ c = clean_text c :=
  C2_storage_before_index_amended putFailEnv "cv" true uPutFail true
    "Textract/CV_extract/u1/f1.txt" (by decide) rfl (by decide)

theorem C3_timeout_bound_witness :
    (extract_text_from_s3 neverEnv "cv" false).1 =
      ExtractResult.err "Textract job timed out" ∧
    (extract_text_async neverEnv.ocr).polls = max_wait_time / wait_interval ∧
    (extract_text_async neverEnv.ocr).slept = max_wait_time ∧
    (extract_text_async neverEnv.ocr).slept ≤ max_wait_time + wait_interval :=
  C3_timeout_bound neverEnv "cv" false "job-2" rfl (fun _ => Or.inl ⟨none, rfl⟩)
    (by decide)

theorem C4_head_failure_amended_witness :
    Event.ocrStart ∈ (extract_text_from_s3 noHeadEnv "cv" false).2 ∧
    Event.cacheRead "Textract/CV_extract/u1/f1.txt" ∉
      (extract_text_from_s3 noHeadEnv "cv" false).2 ∧
    (extract_text_from_s3 noHeadEnv "cv" false).1 = (fresh_of noHeadEnv "cv").1 :=
  ⟨(C4_head_failure_amended noHeadEnv "cv" false rfl).1,
   (C4_head_failure_amended noHeadEnv "cv" false rfl).2.1 "Textract/CV_extract/u1/f1.txt",
   (C4_head_failure_amended noHeadEnv "cv" false rfl).2.2⟩

theorem C5_structured_key_amended_witness :
    rJson.structured_json_s3_key.isSome =
      (truthySJ rJson.structured_json && truthy (uidOf jsonPutFailEnv) &&
       truthy (fidOf jsonPutFailEnv)) ∧
    ∃ ok, Event.putJson "Processed/CV_Json/u1/f1.json" ok ∈ tJson :=
  ⟨(C5_structured_key_amended jsonPutFailEnv "cv" true rJson tJson (by decide)).1,
   (C5_structured_key_amended jsonPutFailEnv "cv" true rJson tJson (by decide)).2
     "Processed/CV_Json/u1/f1.json" rfl⟩

theorem C6_failed_status_witness :
    (extract_text_from_s3 failEnv "cv" false).1 =
      ExtractResult.err ("Textract job failed: " ++ "Document too large") :=
  C6_failed_status failEnv "cv" false "job-3" "Document too large" 0 rfl (by decide)
    (fun _ hi => absurd hi (by omega)) rfl (by decide)

theorem C7_mean_confidence_blank_witness :
    ∃ r, (extract_text_from_s3 noHeadEnv "cv" false).1 = ExtractResult.ok r ∧
      r.text = "" ∧ r.raw_text = "" ∧ r.confidence = 0 :=
  (C7_mean_confidence_blank noHeadEnv "cv" false "job-1" 0 none rfl (by decide)
    (fun _ hi => absurd hi (by omega)) rfl (by decide)).2.2 rfl

theorem C8_structured_best_effort_witness :
    extract_structured_json parseFailBedrock "some resume text" "cv" = none ∧
    extract_structured_json nonDictBedrock "some resume text" "cv" = none ∧
    extract_structured_json c8Env.bedrock "some resume text" "cv" = none ∧
    ∃ r, (extract_text_from_s3 c8Env "cv" false).1 = ExtractResult.ok r ∧
      r.text = clean_text (joinedText c8Env.ocr.finalBlocks) ∧
      r.raw_text = joinedText c8Env.ocr.finalBlocks ∧
      r.structured_json =
        extract_structured_json c8Env.bedrock (joinedText c8Env.ocr.finalBlocks) "cv" ∧
      (structuredStepFailed c8Env.bedrock (joinedText c8Env.ocr.finalBlocks) "cv" →
        r.structured_json = none) :=
  ⟨(C8_structured_best_effort c8Env "cv" false "job-1" 0 none rfl (by decide)
      (fun _ hi => absurd hi (by omega)) rfl (by decide)).1 parseFailBedrock
      "some resume text" "cv" (Or.inr (Or.inr (Or.inl ⟨"this is not json", rfl, rfl⟩))),
   (C8_structured_best_effort c8Env "cv" false "job-1" 0 none rfl (by decide)
      (fun _ hi => absurd hi (by omega)) rfl (by decide)).1 nonDictBedrock
      "some resume text" "cv" (Or.inr (Or.inr (Or.inr ⟨"[1, 2, 3]", rfl, rfl⟩))),
   (C8_structured_best_effort c8Env "cv" false "job-1" 0 none rfl (by decide)
      (fun _ hi => absurd hi (by omega)) rfl (by decide)).1 c8Env.bedrock
      "some resume text" "cv" (Or.inr (Or.inl ⟨"endpoint unreachable", rfl⟩)),
   (C8_structured_best_effort c8Env "cv" false "job-1" 0 none rfl (by decide)
      (fun _ hi => absurd hi (by omega)) rfl (by decide)).2⟩

theorem C9_cache_read_failure_amended_witness :
    (extract_text_from_s3 cacheMissClientEnv "cv" false).1 =
      (fresh_of cacheMissClientEnv "cv").1 ∧
    Event.ocrStart ∈ (extract_text_from_s3 cacheMissClientEnv "cv" false).2 :=
  (C9_cache_read_failure_amended cacheMissClientEnv "cv" "Textract/CV_extract/u1/f1.txt"
    (by decide) (by decide)).1 "Throttling" rfl

theorem C10_clean_removes_zero_and_pipe_witness :
    ('0' ∉ (clean_text "a0|b").data ∧ '|' ∉ (clean_text "a0|b").data) ∧
    "" = rBlank.text :=
  ⟨C10_clean_removes_zero_and_pipe.1 "a0|b",
   C10_clean_removes_zero_and_pipe.2.2.1 putFailEnv "cv" true rBlank tPutFail
     "Textract/CV_extract/u1/f1.txt" "" false (by decide) (by decide)⟩

end TS
